import Mathlib

/-!
Verification of the better-thinking tool core (src/src/better-thinking-tool.ts).

The development shallowly embeds the TypeScript module: the untyped tool-call
payload is modelled by `JSVal` (JavaScript numbers are modelled as rationals;
NaN/Infinity artifacts of binary floating point are outside the model, and no
claim here depends on them), the validator `validateThoughtData`, the renderer
`formatThought`, and the stateful entry point `processThought` follow the
source line by line.  Console diagnostics (console.warn / console.error) are
modelled as a list of emitted strings; the structured response payload that the
source serialises with JSON.stringify is modelled by `StepResult` (the
serialisation itself is presentation glue and carries no logic).
-/

/-- Model of an untyped JavaScript value as delivered to `processThought`.
`undefined` is distinguished from `null` because the validator treats them
differently (`!== undefined` checks, property access on both throws). -/
inductive JSVal where
  | str : String → JSVal
  | num : Rat → JSVal
  | bool : Bool → JSVal
  | null : JSVal
  | undefined : JSVal
  | arr : List JSVal → JSVal
  | obj : List (String × JSVal) → JSVal

/-- First-match association-list lookup, modelling JavaScript property access
on a plain object (keys are unique in practice; insertion order kept). -/
def lookupField : List (String × JSVal) → String → Option JSVal
  | [], _ => none
  | (k, x) :: rest, key => if k = key then some x else lookupField rest key

/-- Property access `v[key]`: `none` models the JavaScript `undefined` result.
On non-objects (numbers, strings, booleans, arrays without that key) property
access yields `undefined`; `null`/`undefined` receivers are handled separately
by the caller (access on them throws a TypeError). -/
def jsGet (v : JSVal) (key : String) : Option JSVal :=
  match v with
  | .obj fields => lookupField fields key
  | _ => none

/-- JavaScript `typeof` operator on the modelled values. -/
def jsTypeOf : JSVal → String
  | .str _ => "string"
  | .num _ => "number"
  | .bool _ => "boolean"
  | .null => "object"
  | .undefined => "undefined"
  | .arr _ => "object"
  | .obj _ => "object"

/-- Truthiness of an optional JavaScript number (`undefined` and `0` are
falsy).  Used where the source tests a `number | undefined` value directly,
e.g. `branchFromThought && ...`. -/
def numOptTruthy : Option Int → Bool
  | some n => decide (n ≠ 0)
  | none => false

/-- Truthiness of an optional JavaScript string (`undefined` and the empty
string are falsy).  Used where the source tests `branchId` directly. -/
def strOptTruthy : Option String → Bool
  | some s => !s.isEmpty
  | none => false

/-- Truthiness of an optional JavaScript boolean (`undefined` is falsy). -/
def boolOptTruthy : Option Bool → Bool
  | some b => b
  | none => false

/-- KnowledgeAssessment interface: an entity plus its assessed status.  After
validation `status` is one of "known", "unknown", "uncertain". -/
structure KnowledgeAssessment where
  entity : String
  status : String
deriving DecidableEq

/-- ThoughtData interface (the Step record).  `thoughtNumber`, `totalThoughts`,
`revisesThought` and `branchFromThought` are stored as integers because the
validator only accepts integral values for them; `confidence_score` keeps the
full numeric range.  `needsMoreThoughts` is part of the interface but is
intentionally omitted (left `none`) by the validator's returned object. -/
structure ThoughtData where
  thought : String
  thoughtNumber : Int
  totalThoughts : Int
  nextThoughtNeeded : Bool
  confidence_score : Option Rat
  knowledge_assessment : Option (List KnowledgeAssessment)
  isRevision : Option Bool
  revisesThought : Option Int
  branchFromThought : Option Int
  branchId : Option String
  needsMoreThoughts : Option Bool
deriving DecidableEq

/-- Error message of the `thought` required-field check (line 81). -/
def thoughtMsg : String :=
  "Invalid input: `thought` is required and must be a non-empty string."

/-- Error message of the `thoughtNumber` required-field check (line 84). -/
def thoughtNumberMsg : String :=
  "Invalid input: `thoughtNumber` is required and must be a positive integer."

/-- Error message of the `totalThoughts` required-field check (line 87). -/
def totalThoughtsMsg : String :=
  "Invalid input: `totalThoughts` is required and must be a positive integer."

/-- Error message of the `nextThoughtNeeded` required-field check (line 90). -/
def nextThoughtNeededMsg : String :=
  "Invalid input: `nextThoughtNeeded` is required and must be a boolean."

/-- Error message of the `confidence_score` range check (line 97). -/
def confidenceMsg : String :=
  "Invalid input: `confidence_score` must be a number between 0.0 and 1.0."

/-- Error message of the `knowledge_assessment` array check (line 105). -/
def kaArrayMsg : String :=
  "Invalid input: `knowledge_assessment` must be an array."

/-- Common stem of the per-element knowledge_assessment error messages: the
offending index followed by a check-specific tail (lines 109/112/115). -/
def kaIdxMsg (i : Nat) (tail : String) : String :=
  "Invalid item in knowledge_assessment at index " ++ toString i ++ tail

/-- Tail of the not-an-object element error (line 109). -/
def kaTailObject : String := ": must be an object."

/-- Tail of the bad-entity element error (line 112). -/
def kaTailEntity : String := ": missing or invalid 'entity' string."

/-- Tail of the bad-status element error (line 115). -/
def kaTailStatus : String :=
  ": 'status' must be 'known', 'unknown', or 'uncertain'."

/-- Message thrown by JavaScript when `input` is `null`/`undefined` and the
validator dereferences `data.thought` (caught by `processThought`). -/
def typeErrMsg : String :=
  "TypeError: cannot read properties of null or undefined"

/-- Check of the required `thought` field (line 80): fails unless the value is
a truthy string, i.e. a non-empty string. -/
def checkThought (input : JSVal) : Except String String :=
  match jsGet input "thought" with
  | some (.str s) => if s.isEmpty then .error thoughtMsg else .ok s
  | _ => .error thoughtMsg

/-- Check of a required positive-integer field (`thoughtNumber` line 83,
`totalThoughts` line 86): the value must be a number, an integer, and ≥ 1. -/
def checkPosIntField (key msg : String) (input : JSVal) : Except String Int :=
  match jsGet input key with
  | some (.num q) => if q.den = 1 ∧ 1 ≤ q then .ok q.num else .error msg
  | _ => .error msg

/-- Check of the required `nextThoughtNeeded` field (line 89). -/
def checkNextThoughtNeeded (input : JSVal) : Except String Bool :=
  match jsGet input "nextThoughtNeeded" with
  | some (.bool b) => .ok b
  | _ => .error nextThoughtNeededMsg

/-- Test for the JavaScript `undefined` value. -/
def jsIsUndefined : JSVal → Bool
  | .undefined => true
  | _ => false

/-- Test for the JavaScript `null` value. -/
def jsIsNull : JSVal → Bool
  | .null => true
  | _ => false

/-- Receivers on which property access throws a TypeError. -/
def jsIsNullLike (v : JSVal) : Bool :=
  jsIsNull v || jsIsUndefined v

/-- The four required-field checks in source order (lines 79-91), preceded by
the implicit property-access failure on a `null`/`undefined` input. -/
def requiredChecks (input : JSVal) :
    Except String (String × Int × Int × Bool) :=
  if jsIsNullLike input then .error typeErrMsg
  else
    match checkThought input with
    | .error e => .error e
    | .ok thought =>
      match checkPosIntField "thoughtNumber" thoughtNumberMsg input with
      | .error e => .error e
      | .ok thoughtNumber =>
        match checkPosIntField "totalThoughts" totalThoughtsMsg input with
        | .error e => .error e
        | .ok totalThoughts =>
          match checkNextThoughtNeeded input with
          | .error e => .error e
          | .ok nextThoughtNeeded =>
            .ok (thought, thoughtNumber, totalThoughts, nextThoughtNeeded)

/-- Optional `confidence_score` check (lines 94-100): absent (or explicitly
`undefined`) is fine; otherwise the value must be a number in [0, 1]. -/
def confidenceCheck (input : JSVal) : Except String (Option Rat) :=
  match jsGet input "confidence_score" with
  | none => .ok none
  | some .undefined => .ok none
  | some (.num q) => if q < 0 ∨ 1 < q then .error confidenceMsg else .ok (some q)
  | some _ => .error confidenceMsg

/-- Validation of one `knowledge_assessment` element at a given index
(lines 107-118): must be a non-null object with a non-empty string `entity`
and a `status` among "known"/"unknown"/"uncertain". -/
def validateKAItem (item : JSVal) (i : Nat) : Except String KnowledgeAssessment :=
  if jsTypeOf item ≠ "object" ∨ jsIsNull item then .error (kaIdxMsg i kaTailObject)
  else
    match jsGet item "entity" with
    | some (.str e) =>
      if e.isEmpty then .error (kaIdxMsg i kaTailEntity)
      else
        match jsGet item "status" with
        | some (.str st) =>
          if st = "known" ∨ st = "unknown" ∨ st = "uncertain" then
            .ok { entity := e, status := st }
          else .error (kaIdxMsg i kaTailStatus)
        | _ => .error (kaIdxMsg i kaTailStatus)
    | _ => .error (kaIdxMsg i kaTailEntity)

/-- Validation of the whole `knowledge_assessment` array: `.map` with a
throwing callback fails at the first offending element (source line 107). -/
def validateKAList : List JSVal → Nat → Except String (List KnowledgeAssessment)
  | [], _ => .ok []
  | item :: rest, i =>
    match validateKAItem item i with
    | .error e => .error e
    | .ok ka =>
      match validateKAList rest (i + 1) with
      | .error e => .error e
      | .ok kas => .ok (ka :: kas)

/-- Optional `knowledge_assessment` check (lines 102-119). -/
def kaCheck (input : JSVal) : Except String (Option (List KnowledgeAssessment)) :=
  match jsGet input "knowledge_assessment" with
  | none => .ok none
  | some .undefined => .ok none
  | some (.arr items) =>
    match validateKAList items 0 with
    | .error e => .error e
    | .ok l => .ok (some l)
  | some _ => .error kaArrayMsg

/-- Permissive parse of an optional boolean field (line 121 / line 125):
a boolean value is kept, anything else is silently dropped. -/
def parseOptBool (v : Option JSVal) : Option Bool :=
  match v with
  | some (.bool b) => some b
  | _ => none

/-- Permissive parse of an optional positive-integer field (lines 122-123):
kept only when the value is an integer number ≥ 1, silently dropped
otherwise. -/
def parsePosInt (v : Option JSVal) : Option Int :=
  match v with
  | some (.num q) => if q.den = 1 ∧ 1 ≤ q then some q.num else none
  | _ => none

/-- Permissive parse of the optional `branchId` field (line 124): any string
value — including the empty string — is kept; non-strings are dropped. -/
def parseOptStr (v : Option JSVal) : Option String :=
  match v with
  | some (.str s) => some s
  | _ => none

/-- Open a chalk 16-color foreground sequence around a string, as the chalk
library does: ESC [ code m … ESC [ 39 m. -/
def chalkWrap (code : Nat) (s : String) : String :=
  "\u001B[" ++ toString code ++ "m" ++ s ++ "\u001B[39m"

/-- chalk.blue -/
def chalkBlue (s : String) : String := chalkWrap 34 s

/-- chalk.yellow -/
def chalkYellow (s : String) : String := chalkWrap 33 s

/-- chalk.green -/
def chalkGreen (s : String) : String := chalkWrap 32 s

/-- chalk.cyan -/
def chalkCyan (s : String) : String := chalkWrap 36 s

/-- chalk.magenta -/
def chalkMagenta (s : String) : String := chalkWrap 35 s

/-- chalk.red -/
def chalkRed (s : String) : String := chalkWrap 31 s

/-- Advisory warning for `isRevision` without `revisesThought` (line 129). -/
def warnRevisionMsg : String :=
  chalkYellow "Warning: `isRevision` is true but `revisesThought` is missing. Revision context might be unclear."

/-- Advisory warning for `branchFromThought` without `branchId` (line 132). -/
def warnBranchMsg : String :=
  chalkYellow "Warning: `branchFromThought` is set but `branchId` is missing. Branch cannot be tracked properly."

/-- Advisory warning for the deprecated `needsMoreThoughts` flag (line 135). -/
def warnDeprecatedMsg : String :=
  chalkYellow "Warning: `needsMoreThoughts` is deprecated. Use `nextThoughtNeeded` for flow control."

/-- Advisory console.warn diagnostics of the validator's success path
(lines 127-136): revision without target, branch origin without id, use of
the deprecated flag — in that order. -/
def warnsOf (input : JSVal) : List String :=
  (if boolOptTruthy (parseOptBool (jsGet input "isRevision"))
      && (parsePosInt (jsGet input "revisesThought")).isNone
    then [warnRevisionMsg] else [])
  ++ (if numOptTruthy (parsePosInt (jsGet input "branchFromThought"))
      && (parseOptStr (jsGet input "branchId")).isNone
    then [warnBranchMsg] else [])
  ++ (if (parseOptBool (jsGet input "needsMoreThoughts")).isSome
    then [warnDeprecatedMsg] else [])

/-- validateThoughtData (lines 76-153): converts the raw input into a
ThoughtData record or fails with the first violated check's message; the
accompanying list collects the advisory console.warn diagnostics emitted on
the success path (lines 127-136).  The returned record intentionally omits
`needsMoreThoughts` (line 150). -/
def validateThoughtData (input : JSVal) :
    Except String (ThoughtData × List String) :=
  match requiredChecks input with
  | .error e => .error e
  | .ok (thought, thoughtNumber, totalThoughts, nextThoughtNeeded) =>
    match confidenceCheck input with
    | .error e => .error e
    | .ok confidence_score =>
      match kaCheck input with
      | .error e => .error e
      | .ok knowledge_assessment =>
        .ok ({ thought := thought, thoughtNumber := thoughtNumber,
               totalThoughts := totalThoughts,
               nextThoughtNeeded := nextThoughtNeeded,
               confidence_score := confidence_score,
               knowledge_assessment := knowledge_assessment,
               isRevision := parseOptBool (jsGet input "isRevision"),
               revisesThought := parsePosInt (jsGet input "revisesThought"),
               branchFromThought := parsePosInt (jsGet input "branchFromThought"),
               branchId := parseOptStr (jsGet input "branchId"),
               needsMoreThoughts := none }, warnsOf input)

/-- Character class `[[()#;?]` — the intermediate bytes the ANSI regex allows
after the escape introducer (source line 13). -/
def ansiIntro (c : Char) : Bool :=
  c = '[' || c = '(' || c = ')' || c = '#' || c = ';' || c = '?'

/-- Final byte class `[0-9A-ORZcf-nqry=><]` of the ANSI regex. -/
def ansiFinal (c : Char) : Bool :=
  let n := c.toNat
  (48 ≤ n && n ≤ 57)      -- 0-9
  || (65 ≤ n && n ≤ 79)   -- A-O
  || n = 82 || n = 90     -- R, Z
  || n = 99               -- c
  || (102 ≤ n && n ≤ 110) -- f-n
  || n = 113 || n = 114 || n = 121 -- q, r, y
  || n = 61 || n = 62 || n = 60    -- =, >, <

/-- ASCII digit test, for the `[0-9]` pieces of the regex. -/
def isAsciiDigit (c : Char) : Bool :=
  48 ≤ c.toNat && c.toNat ≤ 57

/-- Backtracking alternatives of a greedy star over a character class: every
possible remainder, longest consumption first — JavaScript regex `p*`. -/
def starAlts (p : Char → Bool) : List Char → List (List Char)
  | [] => [[]]
  | c :: cs => if p c then starAlts p cs ++ [c :: cs] else [c :: cs]

/-- Backtracking alternatives of a greedy bounded repetition `p{0,n}`:
remainders after consuming at most `n` matching characters, longest first. -/
def repAlts (p : Char → Bool) : Nat → List Char → List (List Char)
  | 0, cs => [cs]
  | _ + 1, [] => [[]]
  | n + 1, c :: cs => if p c then repAlts p n cs ++ [c :: cs] else [c :: cs]

/-- Backtracking alternatives of `[0-9]{1,4}`: one mandatory digit then up to
three more, greedy. -/
def digits14Alts : List Char → List (List Char)
  | [] => []
  | c :: cs => if isAsciiDigit c then repAlts isAsciiDigit 3 cs else []

/-- Backtracking alternatives of the greedy star `(?:;[0-9]{0,4})*`; each
iteration consumes at least the `;`, so fuel equal to the input length is
always sufficient (when fuel runs out the list is exhausted). -/
def semiStarAlts : Nat → List Char → List (List Char)
  | 0, cs => [cs]
  | fuel + 1, cs =>
    match cs with
    | ';' :: cs' =>
      ((repAlts isAsciiDigit 4 cs').flatMap (semiStarAlts fuel)) ++ [cs]
    | _ => [cs]

/-- Backtracking alternatives of the optional digit group
`(?:[0-9]{1,4}(?:;[0-9]{0,4})*)?` — present (greedy) first, absent last. -/
def digitGroupAlts (cs : List Char) : List (List Char) :=
  ((digits14Alts cs).flatMap (fun r => semiStarAlts r.length r)) ++ [cs]

/-- Attempt the body of the ANSI regex after the introducer character, in
JavaScript backtracking order; returns the remainder after the first overall
match (the final byte must follow). -/
def ansiMatchAfter (cs : List Char) : Option (List Char) :=
  ((starAlts ansiIntro cs).flatMap digitGroupAlts).findSome? (fun rem =>
    match rem with
    | d :: rest => if ansiFinal d then some rest else none
    | [] => none)

/-- Attempt the full ANSI regex `[\u001b\u009b][[()#;?]*(?:[0-9]{1,4}
(?:;[0-9]{0,4})*)?[0-9A-ORZcf-nqry=><]` at the head of the character list. -/
def ansiMatch : List Char → Option (List Char)
  | c :: cs => if c.toNat = 27 || c.toNat = 155 then ansiMatchAfter cs else none
  | [] => none

/-- Scanner for the global replace `str.replace(ansiRegex, '')`: at each
position either remove a match and continue after it, or keep the character.
Each step consumes at least one character, so fuel equal to the input length
is always sufficient. -/
def stripAnsiAux : Nat → List Char → List Char
  | 0, cs => cs
  | _ + 1, [] => []
  | fuel + 1, c :: cs =>
    match ansiMatch (c :: cs) with
    | some rem => stripAnsiAux fuel rem
    | none => c :: stripAnsiAux fuel cs

/-- stripAnsi (source lines 11-15): removes ANSI escape sequences from a
string, used for display-width computation. -/
def stripAnsi (s : String) : String :=
  String.mk (stripAnsiAux s.data.length s.data)

/-- UTF-16 length of one character, as JavaScript's `String.length` counts it
(astral-plane code points take two units). -/
def jsCharWidth (c : Char) : Nat :=
  if c.toNat ≥ 65536 then 2 else 1

/-- JavaScript `String.length`: number of UTF-16 code units. -/
def jsLength (s : String) : Nat :=
  s.data.foldl (fun acc c => acc + jsCharWidth c) 0

/-- JavaScript `padEnd(width)` with the default space pad (pads by UTF-16
length; no-op when already long enough). -/
def jsPadEnd (s : String) (width : Nat) : String :=
  s ++ String.mk (List.replicate (width - jsLength s) ' ')

/-- Helper for `split('\n')`: accumulates the current segment (reversed). -/
def splitNlAux : List Char → List Char → List String
  | acc, [] => [String.mk acc.reverse]
  | acc, c :: cs =>
    if c = '\n' then String.mk acc.reverse :: splitNlAux [] cs
    else splitNlAux (c :: acc) cs

/-- JavaScript `s.split('\n')` (always non-empty; `""` yields `[""]`). -/
def jsSplitNl (s : String) : List String :=
  splitNlAux [] s.data

/-- JavaScript `array.join('\n')`. -/
def joinNl : List String → String
  | [] => ""
  | [s] => s
  | s :: rest => s ++ "\n" ++ joinNl rest

/-- Model of JavaScript `Number.toFixed(2)` for the validated confidence range
[0, 1]: round to the nearest hundredth (ties away from zero) and print with
two decimals. -/
def toFixed2 (q : Rat) : String :=
  let n : Int := (q * 100 + 1 / 2).floor
  let ip := n / 100
  let fp := n % 100
  toString ip ++ "." ++ (if fp < 10 then "0" ++ toString fp else toString fp)

/-- Truthiness of `isRevision && revisesThought` (source line 166). -/
def revisionCond (t : ThoughtData) : Bool :=
  boolOptTruthy t.isRevision && numOptTruthy t.revisesThought

/-- Truthiness of `branchFromThought && branchId` (source lines 169 and 236):
note that an empty-string `branchId` is falsy. -/
def branchCond (t : ThoughtData) : Bool :=
  numOptTruthy t.branchFromThought && strOptTruthy t.branchId

/-- Colored label of the step's visual kind (lines 163-172): Revision wins
over Branch, else plain Thought. -/
def stepLabel (t : ThoughtData) : String :=
  if revisionCond t then chalkYellow "🔄 Revision"
  else if branchCond t then chalkGreen "🌿 Branch"
  else chalkBlue "💭 Thought"

/-- Context suffix of the header (lines 163-172). -/
def contextOf (t : ThoughtData) : String :=
  if revisionCond t then
    " (revising thought " ++ toString (t.revisesThought.getD 0) ++ ")"
  else if branchCond t then
    " (from thought " ++ toString (t.branchFromThought.getD 0)
      ++ ", ID: " ++ t.branchId.getD "" ++ ")"
  else ""

/-- Header line `<label> <thoughtNumber>/<totalThoughts><context>`
(line 174). -/
def headerLine (t : ThoughtData) : String :=
  stepLabel t ++ " " ++ toString t.thoughtNumber ++ "/"
    ++ toString t.totalThoughts ++ contextOf t

/-- Optional confidence content line (lines 177-179). -/
def confidenceLine (t : ThoughtData) : String :=
  match t.confidence_score with
  | some q => "Confidence: " ++ chalkCyan (toFixed2 q)
  | none => ""

/-- Optional knowledge-assessment content block (lines 180-182): heading plus
one line per entity; empty when the list is absent or empty (`?.length` is
falsy for both). -/
def knowledgeLines (t : ThoughtData) : String :=
  match t.knowledge_assessment with
  | some l =>
    if l.isEmpty then ""
    else "Knowledge Assessment:\n"
      ++ joinNl (l.map (fun ka =>
          "  - " ++ chalkYellow ka.entity ++ ": " ++ chalkMagenta ka.status))
  | none => ""

/-- Core content blocks with empties filtered out — `\x7bthought,
confidenceLine, knowledgeLines].filter(Boolean)` (line 185). -/
def coreContentLines (t : ThoughtData) : List String :=
  [t.thought, confidenceLine t, knowledgeLines t].filter (fun l => !l.isEmpty)

/-- All physical lines entering the width computation: the header plus every
embedded line of every non-empty content block (line 188). -/
def allLinesForWidth (t : ThoughtData) : List String :=
  headerLine t :: (coreContentLines t).flatMap jsSplitNl

/-- Frame width: `Math.max(0, ...lines.map(l => stripAnsi(l).length))`
(line 189) — the maximum visible width, control sequences excluded. -/
def maxWidthOf (t : ThoughtData) : Nat :=
  (allLinesForWidth t).foldl (fun acc l => max acc (jsLength (stripAnsi l))) 0

/-- formatThought (lines 160-212): renders the boxed, colored representation
of a step.  Pure function of the step record. -/
def formatThought (t : ThoughtData) : String :=
  let header := headerLine t
  let core := coreContentLines t
  let w := maxWidthOf t
  let border := String.mk (List.replicate (w + 2) '─')
  let separator := "├" ++ String.mk (List.replicate (w + 2) '·') ++ "┤"
  let top := "\n┌" ++ border ++ "┐\n│ " ++ jsPadEnd header w ++ " │"
  let renderBlock := fun (acc : String) (line : String) =>
    (jsSplitNl line).foldl
      (fun a sub => a ++ "\n│ " ++ jsPadEnd sub w ++ " │") acc
  let body :=
    if core.isEmpty then top
    else
      (List.range core.length).foldl
        (fun acc i =>
          let line := core.getD i ""
          let acc :=
            if i > 0 && !line.isEmpty && !(core.getD (i - 1) "").isEmpty
            then acc ++ "\n" ++ separator else acc
          renderBlock acc line)
        (top ++ "\n├" ++ border ++ "┤")
  body ++ "\n└" ++ border ++ "┘"

/-- Structured response payload returned to the client (lines 249-263 and
271-282), before JSON serialisation: either the success record or the failure
record carrying the error message.  The `isError: true` flag of the transport
wrapper corresponds to the `failure` constructor. -/
inductive StepResult where
  | success (thought_number_processed : Int) (current_total_thoughts : Int)
      (next_thought_needed : Bool) (active_branches : List String)
      (total_history_length : Nat) : StepResult
  | failure (error : String) : StepResult
deriving DecidableEq

/-- Whether the result has the Success shape. -/
def StepResult.isSuccess : StepResult → Bool
  | .success _ _ _ _ _ => true
  | .failure _ => false

/-- Whether the result has the Failure shape. -/
def StepResult.isFailure : StepResult → Bool
  | .success _ _ _ _ _ => false
  | .failure _ => true

/-- The `current_total_thoughts` field of a success payload. -/
def StepResult.currentTotal : StepResult → Option Int
  | .success _ ct _ _ _ => some ct
  | .failure _ => none

/-- The `total_history_length` field of a success payload. -/
def StepResult.historyLen : StepResult → Option Nat
  | .success _ _ _ _ n => some n
  | .failure _ => none

/-- Private mutable state of BetterThinkingToolLogic (lines 66-67): the main
history and the branch record.  The branch record is an insertion-ordered
association list, matching JavaScript object key order for the non-numeric
branch identifiers used here. -/
structure ToolState where
  thoughtHistory : List ThoughtData
  branches : List (String × List ThoughtData)
deriving DecidableEq

/-- Fresh instance: both structures start empty. -/
def initialState : ToolState := { thoughtHistory := [], branches := [] }

/-- Update the value stored under an existing key, keeping its position. -/
def branchSet : List (String × List ThoughtData) → String → List ThoughtData →
    List (String × List ThoughtData)
  | [], _, _ => []
  | (k, x) :: rest, key, v =>
    if k = key then (k, v) :: rest else (k, x) :: branchSet rest key v

/-- Own-property lookup in the branch record: the branch arrays the tool has
itself created.  This is only half of a JavaScript bracket read — see
`jsBracketGet` for the full semantics including the prototype chain. -/
def ownGet (bs : List (String × List ThoughtData)) (key : String) :
    Option (List ThoughtData) :=
  match bs with
  | [] => none
  | (k, x) :: rest => if k = key then some x else ownGet rest key

/-- The property names every plain JavaScript object (`this.branches = {}`)
inherits from Object.prototype: the standard methods plus the `__proto__`
accessor (Annex B, present in Node).  A bracket read of any of these on an
empty object yields a truthy non-array value (a function, or the prototype
object itself for `__proto__`). -/
def protoKeys : List String :=
  ["constructor", "hasOwnProperty", "isPrototypeOf", "propertyIsEnumerable",
   "toLocaleString", "toString", "valueOf", "__proto__",
   "__defineGetter__", "__defineSetter__", "__lookupGetter__",
   "__lookupSetter__"]

/-- Result of a JavaScript bracket read `this.branches[key]` on the branch
record: an own branch array, an inherited Object.prototype member (truthy,
but not an array — calling `.push` on it throws a TypeError), or
`undefined`. -/
inductive JSRecordVal where
  | arr : List ThoughtData → JSRecordVal
  | protoFn : JSRecordVal
  | undefVal : JSRecordVal
deriving DecidableEq

/-- JavaScript bracket read on the branch record: an own property shadows the
prototype chain; otherwise an Object.prototype member is found for the keys
in `protoKeys`; otherwise the read yields `undefined`. -/
def jsBracketGet (bs : List (String × List ThoughtData)) (key : String) :
    JSRecordVal :=
  match ownGet bs key with
  | some l => .arr l
  | none => if key ∈ protoKeys then .protoFn else .undefVal

/-- The totalThoughts auto-adjustment (lines 227-230): when thoughtNumber
exceeds totalThoughts, raise totalThoughts to thoughtNumber; this is the only
mutation performed on a validated step. -/
def adjustStep (v : ThoughtData) : ThoughtData :=
  if v.totalThoughts < v.thoughtNumber then
    { v with totalThoughts := v.thoughtNumber }
  else v

/-- Advisory warning emitted alongside the auto-adjustment (line 228). -/
def adjustWarning (v : ThoughtData) : String :=
  chalkYellow ("Warning: thoughtNumber (" ++ toString v.thoughtNumber
    ++ ") exceeds totalThoughts (" ++ toString v.totalThoughts
    ++ "). Adjusting totalThoughts.")

/-- Informational notice emitted when a new branch is created (line 239). -/
def branchStartMsg (bid : String) (origin : Int) : String :=
  chalkGreen ("🌱 Starting new branch: " ++ bid ++ " from thought "
    ++ toString origin)

/-- Outcome of the branching logic: either the updated record with its
notices, or the TypeError thrown by `.push` on an inherited Object.prototype
member found by the bracket read. -/
inductive BranchOutcome where
  | updated : List (String × List ThoughtData) → List String → BranchOutcome
  | pushThrew : BranchOutcome
deriving DecidableEq

/-- The message of the TypeError thrown at line 241 when
`this.branches[validatedInput.branchId]` is an inherited, non-array
Object.prototype member (modelled after the V8 text; caught at line 265 and
surfaced verbatim in the Failure payload). -/
def branchPushTypeErrMsg : String :=
  "this.branches[validatedInput.branchId].push is not a function"

/-- The branching logic of processThought (lines 235-242) under JavaScript
bracket-read semantics: `!this.branches[branchId]` is false both for an
existing own branch array and for an inherited Object.prototype member, so
in either case creation is skipped; the subsequent `.push` appends to an own
array but throws a TypeError on an inherited member.  A branch is created
(with the informational notice) only when the read yields `undefined`. -/
def branchUpdate (bs : List (String × List ThoughtData)) (v : ThoughtData) :
    BranchOutcome :=
  if branchCond v then
    match jsBracketGet bs (v.branchId.getD "") with
    | .undefVal =>
      .updated (bs ++ [(v.branchId.getD "", [v])])
        [branchStartMsg (v.branchId.getD "") (v.branchFromThought.getD 0)]
    | .arr l => .updated (branchSet bs (v.branchId.getD "") (l ++ [v])) []
    | .protoFn => .pushThrew
  else .updated bs []

/-- Post-validation path of processThought (lines 226-263): adjust, append to
the history (line 233), then run the branching logic.  When the branch push
throws, the TypeError propagates to the catch at line 265: the call returns
the Failure payload although the step is already stored in the history (the
branch record is untouched and nothing is rendered).  Otherwise the step is
rendered and the success payload assembled.  The third component is the
diagnostic channel. -/
def processOk (σ : ToolState) (v0 : ThoughtData) (warns : List String) :
    StepResult × ToolState × List String :=
  let adjustLog := if v0.totalThoughts < v0.thoughtNumber
    then [adjustWarning v0] else []
  let v := adjustStep v0
  let hist := σ.thoughtHistory ++ [v]
  match branchUpdate σ.branches v with
  | .updated branches branchLog =>
    (StepResult.success v.thoughtNumber v.totalThoughts v.nextThoughtNeeded
       (branches.map Prod.fst) hist.length,
     { thoughtHistory := hist, branches := branches },
     warns ++ adjustLog ++ branchLog ++ [formatThought v])
  | .pushThrew =>
    (StepResult.failure branchPushTypeErrMsg,
     { thoughtHistory := hist, branches := σ.branches },
     warns ++ adjustLog
       ++ [chalkRed ("❌ Error processing thought: " ++ branchPushTypeErrMsg)])

/-- processThought (lines 221-284): the single entry point.  Any error —
thrown by validation, or by the branch push after the history append — is
caught and mapped to the Failure payload with the error message. -/
def processThought (σ : ToolState) (input : JSVal) :
    StepResult × ToolState × List String :=
  match validateThoughtData input with
  | .ok (v, warns) => processOk σ v warns
  | .error msg =>
    (StepResult.failure msg, σ,
     [chalkRed ("❌ Error processing thought: " ++ msg)])

/-- States reachable from a fresh BetterThinkingToolLogic instance by any
sequence of processThought calls. -/
inductive Reachable : ToolState → Prop
  | init : Reachable initialState
  | step (σ : ToolState) (input : JSVal) (h : Reachable σ) :
      Reachable (processThought σ input).2.1

deriving instance DecidableEq for Except

/-- On a validated input, processThought is its post-validation path. -/
theorem processThought_ok (σ : ToolState) (input : JSVal) (v : ThoughtData)
    (w : List String) (hv : validateThoughtData input = .ok (v, w)) :
    processThought σ input = processOk σ v w := by
  rw [processThought, hv]

/-- On a rejected input, processThought is the Failure payload with the
validation message and an untouched state. -/
theorem processThought_err (σ : ToolState) (input : JSVal) (msg : String)
    (hv : validateThoughtData input = .error msg) :
    processThought σ input =
      (StepResult.failure msg, σ,
       [chalkRed ("❌ Error processing thought: " ++ msg)]) := by
  rw [processThought, hv]

/-- processOk appends exactly the adjusted step to the history, whether or
not the branch push throws. -/
theorem processOk_history (σ : ToolState) (v : ThoughtData) (w : List String) :
    (processOk σ v w).2.1.thoughtHistory = σ.thoughtHistory ++ [adjustStep v] := by
  cases hb : branchUpdate σ.branches (adjustStep v) <;> simp [processOk, hb]

/-- Full shape of processOk when the branch logic does not throw. -/
theorem processOk_updated (σ : ToolState) (v : ThoughtData) (w : List String)
    (bs' : List (String × List ThoughtData)) (log : List String)
    (hb : branchUpdate σ.branches (adjustStep v) = .updated bs' log) :
    processOk σ v w =
      (StepResult.success (adjustStep v).thoughtNumber
         (adjustStep v).totalThoughts (adjustStep v).nextThoughtNeeded
         (bs'.map Prod.fst) (σ.thoughtHistory ++ [adjustStep v]).length,
       { thoughtHistory := σ.thoughtHistory ++ [adjustStep v],
         branches := bs' },
       w ++ (if v.totalThoughts < v.thoughtNumber then [adjustWarning v]
         else []) ++ log ++ [formatThought (adjustStep v)]) := by
  simp [processOk, hb]

/-- Full shape of processOk when the branch push throws the TypeError: a
Failure payload, the step already in the history, branches untouched. -/
theorem processOk_threw (σ : ToolState) (v : ThoughtData) (w : List String)
    (hb : branchUpdate σ.branches (adjustStep v) = .pushThrew) :
    processOk σ v w =
      (StepResult.failure branchPushTypeErrMsg,
       { thoughtHistory := σ.thoughtHistory ++ [adjustStep v],
         branches := σ.branches },
       w ++ (if v.totalThoughts < v.thoughtNumber then [adjustWarning v]
         else [])
         ++ [chalkRed ("❌ Error processing thought: "
              ++ branchPushTypeErrMsg)]) := by
  simp [processOk, hb]

/-- The adjusted step satisfies the invariant thoughtNumber ≤ totalThoughts. -/
theorem adjustStep_le (v : ThoughtData) :
    (adjustStep v).thoughtNumber ≤ (adjustStep v).totalThoughts := by
  unfold adjustStep; split <;> (try simp) <;> omega

/-- The adjustment stores the maximum of the two counters. -/
theorem adjustStep_total (v : ThoughtData) :
    (adjustStep v).totalThoughts = max v.thoughtNumber v.totalThoughts := by
  unfold adjustStep; split <;> (try simp) <;> omega

/-- Undoing the totalThoughts change recovers the validated step: totalThoughts
is the only field the adjustment can touch. -/
theorem adjustStep_only_total (v : ThoughtData) :
    { adjustStep v with totalThoughts := v.totalThoughts } = v := by
  unfold adjustStep; split <;> rfl

/-- Every step in the history of any reachable state satisfies
thoughtNumber ≤ totalThoughts (also when the step was stored by a call that
then failed on the branch push). -/
theorem history_invariant (σ : ToolState) (h : Reachable σ) :
    ∀ t ∈ σ.thoughtHistory, t.thoughtNumber ≤ t.totalThoughts := by
  induction h with
  | init => intro t ht; simp [initialState] at ht
  | step σ' input _ ih =>
    intro t ht
    cases hv : validateThoughtData input with
    | error e => rw [processThought, hv] at ht; exact ih t ht
    | ok vw =>
      obtain ⟨v, w⟩ := vw
      rw [processThought_ok σ' input v w hv, processOk_history] at ht
      rcases List.mem_append.mp ht with hin | hnew
      · exact ih t hin
      · rw [List.mem_singleton.mp hnew]; exact adjustStep_le v

/-- Whether an Except value is ok, as a Bool. -/
def exceptIsOk {ε α : Type} : Except ε α → Bool
  | .ok _ => true
  | .error _ => false

/-- A validated input whose branchId names an inherited Object.prototype
member: the branch push throws after the history append. -/
def protoBranchInput : JSVal :=
  .obj [("thought", .str "t"), ("thoughtNumber", .num 1),
        ("totalThoughts", .num 1), ("nextThoughtNeeded", .bool true),
        ("branchFromThought", .num 1), ("branchId", .str "toString")]

/-- The step the validator produces for `protoBranchInput`. -/
def protoBranchStep : ThoughtData :=
  { thought := "t", thoughtNumber := 1, totalThoughts := 1,
    nextThoughtNeeded := true, confidence_score := none,
    knowledge_assessment := none, isRevision := none, revisesThought := none,
    branchFromThought := some 1, branchId := some "toString",
    needsMoreThoughts := none }

/-- Counterexample to C1 as stated: with branchId = "toString" the call
returns a Failure, yet the history has grown by one — the step was stored
before the branch push threw. -/
theorem failure_stores_step_cex :
    (processThought initialState protoBranchInput).1.isFailure = true
    ∧ initialState.thoughtHistory.length = 0
    ∧ (processThought initialState protoBranchInput).2.1.thoughtHistory.length
        = 1 :=
  ⟨by decide, rfl, by decide⟩

/-- Claim C1 (amended): processThought always returns one of the two payload
shapes and never propagates an exception; a Failure coming from validation
leaves the state exactly as before the call (nothing stored); the only other
Failure is the branch-push TypeError — a validated step whose branchId finds
an inherited Object.prototype member — and there the step has already been
appended to the history while the branch record is unchanged. -/
theorem processThought_shapes_and_failure_state :
    (∀ (σ : ToolState) (input : JSVal),
      (processThought σ input).1.isSuccess = true
        ∨ (processThought σ input).1.isFailure = true)
    ∧ (∀ (σ : ToolState) (input : JSVal) (msg : String),
        validateThoughtData input = .error msg →
        (processThought σ input).1 = .failure msg
        ∧ (processThought σ input).2.1 = σ)
    ∧ (∀ (σ : ToolState) (input : JSVal) (v : ThoughtData) (w : List String),
        validateThoughtData input = .ok (v, w) →
        (processThought σ input).1.isFailure = true →
        branchUpdate σ.branches (adjustStep v) = .pushThrew
        ∧ (processThought σ input).1 = .failure branchPushTypeErrMsg
        ∧ (processThought σ input).2.1.thoughtHistory
            = σ.thoughtHistory ++ [adjustStep v]
        ∧ (processThought σ input).2.1.branches = σ.branches) := by
  refine ⟨fun σ input => ?_, fun σ input msg hv => ?_, fun σ input v w hv hf => ?_⟩
  · cases hv : validateThoughtData input with
    | ok vw =>
      obtain ⟨v, w⟩ := vw
      rw [processThought_ok σ input v w hv]
      cases hb : branchUpdate σ.branches (adjustStep v) with
      | updated bs' log =>
        left; rw [processOk_updated σ v w bs' log hb]; rfl
      | pushThrew =>
        right; rw [processOk_threw σ v w hb]; rfl
    | error e =>
      right; rw [processThought_err σ input e hv]; rfl
  · rw [processThought_err σ input msg hv]; exact ⟨rfl, rfl⟩
  · rw [processThought_ok σ input v w hv] at hf ⊢
    cases hb : branchUpdate σ.branches (adjustStep v) with
    | updated bs' log =>
      rw [processOk_updated σ v w bs' log hb] at hf
      exact absurd hf (by simp [StepResult.isFailure])
    | pushThrew =>
      rw [processOk_threw σ v w hb]
      exact ⟨rfl, rfl, rfl, rfl⟩

/-- Witness for C1: the state is untouched on a validation failure (empty
record), and at `protoBranchInput` the failing call has already appended the
step while leaving the branch record alone. -/
theorem processThought_shapes_and_failure_state_witness :
    (processThought initialState (JSVal.obj [])).2.1 = initialState
    ∧ (processThought initialState protoBranchInput).2.1.thoughtHistory
        = initialState.thoughtHistory ++ [adjustStep protoBranchStep]
    ∧ (processThought initialState protoBranchInput).2.1.branches
        = initialState.branches := by
  have h1 := (processThought_shapes_and_failure_state.2.1 initialState
    (JSVal.obj []) thoughtMsg (by decide)).2
  have h2 := processThought_shapes_and_failure_state.2.2 initialState
    protoBranchInput protoBranchStep [] (by decide) (by decide)
  exact ⟨h1, h2.2.2.1, h2.2.2.2⟩

/-- Counterexample to C2 as stated: the validator accepts
branchId = "toString" (every validation check passes), yet the call returns
a Failure — the branch push throws on the inherited Object.prototype
member. -/
theorem success_iff_valid_cex :
    exceptIsOk (validateThoughtData protoBranchInput) = true
    ∧ (processThought initialState protoBranchInput).1.isFailure = true :=
  ⟨by decide, by decide⟩

/-- Claim C2 (amended): processThought succeeds exactly when the input passes
every validation check AND the branch push does not hit an inherited
Object.prototype member; on every success the history grows by exactly one
step and the returned total_history_length equals the new length. -/
theorem success_iff_valid_and_push_ok :
    (∀ (σ : ToolState) (input : JSVal),
      ((processThought σ input).1.isSuccess = true ↔
        ∃ v w, validateThoughtData input = .ok (v, w)
          ∧ branchUpdate σ.branches (adjustStep v) ≠ .pushThrew))
    ∧ (∀ (σ : ToolState) (input : JSVal),
        (processThought σ input).1.isSuccess = true →
        (processThought σ input).2.1.thoughtHistory.length
          = σ.thoughtHistory.length + 1
        ∧ (processThought σ input).1.historyLen
          = some (processThought σ input).2.1.thoughtHistory.length) := by
  constructor
  · intro σ input
    cases hv : validateThoughtData input with
    | ok vw =>
      obtain ⟨v, w⟩ := vw
      cases hb : branchUpdate σ.branches (adjustStep v) with
      | updated bs' log =>
        constructor
        · intro _
          exact ⟨v, w, rfl,
            by rw [hb]; exact fun hc => BranchOutcome.noConfusion hc⟩
        · intro _
          rw [processThought_ok σ input v w hv,
            processOk_updated σ v w bs' log hb]
          rfl
      | pushThrew =>
        constructor
        · intro hs
          rw [processThought_ok σ input v w hv, processOk_threw σ v w hb] at hs
          exact absurd hs (by simp [StepResult.isSuccess])
        · rintro ⟨v', w', hv', hne'⟩
          rw [Except.ok.injEq, Prod.mk.injEq] at hv'
          exact absurd (hv'.1 ▸ hb) hne'
    | error e =>
      constructor
      · intro hs
        rw [processThought_err σ input e hv] at hs
        exact absurd hs (by simp [StepResult.isSuccess])
      · rintro ⟨v', w', hv', -⟩
        exact absurd hv' (by simp)

  · intro σ input hs
    cases hv : validateThoughtData input with
    | ok vw =>
      obtain ⟨v, w⟩ := vw
      cases hb : branchUpdate σ.branches (adjustStep v) with
      | updated bs' log =>
        rw [processThought_ok σ input v w hv,
          processOk_updated σ v w bs' log hb]
        simp [StepResult.historyLen]
      | pushThrew =>
        rw [processThought_ok σ input v w hv, processOk_threw σ v w hb] at hs
        exact absurd hs (by simp [StepResult.isSuccess])
    | error e =>
      rw [processThought_err σ input e hv] at hs
      exact absurd hs (by simp [StepResult.isSuccess])

/-- Valid input with no branch fields, used to witness the success path. -/
def basicInput : JSVal :=
  .obj [("thought", .str "step one"), ("thoughtNumber", .num 1),
        ("totalThoughts", .num 2), ("nextThoughtNeeded", .bool true)]

/-- The step the validator produces for `basicInput`. -/
def basicStep : ThoughtData :=
  { thought := "step one", thoughtNumber := 1, totalThoughts := 2,
    nextThoughtNeeded := true, confidence_score := none,
    knowledge_assessment := none, isRevision := none, revisesThought := none,
    branchFromThought := none, branchId := none, needsMoreThoughts := none }

/-- Witness for C2 at `basicInput`: success, and the history grows from 0
to 1. -/
theorem success_iff_valid_and_push_ok_witness :
    (processThought initialState basicInput).1.isSuccess = true
    ∧ (processThought initialState basicInput).2.1.thoughtHistory.length
      = initialState.thoughtHistory.length + 1 := by
  have hs := (success_iff_valid_and_push_ok.1 initialState basicInput).mpr
    ⟨basicStep, [], by decide, by decide⟩
  exact ⟨hs, (success_iff_valid_and_push_ok.2 initialState basicInput hs).1⟩

/-- Claim C3: every stored step satisfies thoughtNumber ≤ totalThoughts; a
validated step with thoughtNumber > totalThoughts has its totalThoughts raised
to thoughtNumber before being appended (with the advisory warning on the
diagnostic channel), this is the only change ever applied to it, and whenever
the call returns a Success payload its current_total_thoughts reflects the
adjusted value. -/
theorem stored_total_ge_number :
    (∀ σ : ToolState, Reachable σ →
      ∀ t ∈ σ.thoughtHistory, t.thoughtNumber ≤ t.totalThoughts)
    ∧ (∀ v : ThoughtData,
        (adjustStep v).totalThoughts = max v.thoughtNumber v.totalThoughts
        ∧ { adjustStep v with totalThoughts := v.totalThoughts } = v)
    ∧ (∀ (σ : ToolState) (input : JSVal) (v : ThoughtData) (w : List String),
        validateThoughtData input = .ok (v, w) →
        (processThought σ input).2.1.thoughtHistory
            = σ.thoughtHistory ++ [adjustStep v]
        ∧ ((processThought σ input).1.isSuccess = true →
            (processThought σ input).1.currentTotal
              = some (adjustStep v).totalThoughts)
        ∧ (v.totalThoughts < v.thoughtNumber →
            adjustWarning v ∈ (processThought σ input).2.2)) := by
  refine ⟨history_invariant,
    fun v => ⟨adjustStep_total v, adjustStep_only_total v⟩,
    fun σ input v w hv => ?_⟩
  refine ⟨by rw [processThought_ok σ input v w hv, processOk_history], ?_, ?_⟩
  · intro hs
    rw [processThought_ok σ input v w hv] at hs ⊢
    cases hb : branchUpdate σ.branches (adjustStep v) with
    | updated bs' log => rw [processOk_updated σ v w bs' log hb]; rfl
    | pushThrew =>
      rw [processOk_threw σ v w hb] at hs
      exact absurd hs (by simp [StepResult.isSuccess])
  · intro hlt
    rw [processThought_ok σ input v w hv]
    cases hb : branchUpdate σ.branches (adjustStep v) with
    | updated bs' log =>
      rw [processOk_updated σ v w bs' log hb]
      simp [if_pos hlt]
    | pushThrew =>
      rw [processOk_threw σ v w hb]
      simp [if_pos hlt]

/-- Witness for C3 at thoughtNumber = 5, totalThoughts = 3: the call reports
current_total_thoughts = 5 and stores totalThoughts = 5. -/
theorem stored_total_ge_number_witness :
    (processThought initialState (JSVal.obj [("thought", .str "t"),
        ("thoughtNumber", .num 5), ("totalThoughts", .num 3),
        ("nextThoughtNeeded", .bool true)])).1.currentTotal = some 5 := by
  have h := (stored_total_ge_number.2.2 initialState
    (JSVal.obj [("thought", .str "t"), ("thoughtNumber", .num 5),
      ("totalThoughts", .num 3), ("nextThoughtNeeded", .bool true)])
    { thought := "t", thoughtNumber := 5, totalThoughts := 3,
      nextThoughtNeeded := true, confidence_score := none,
      knowledge_assessment := none, isRevision := none, revisesThought := none,
      branchFromThought := none, branchId := none, needsMoreThoughts := none }
    [] (by decide)).2.1
  exact (h (by decide)).trans (by decide)

/-- Inversion of the bundled required checks: a successful result pins down
each individual check. -/
theorem requiredChecks_ok (input : JSVal) (s : String) (tn tt : Int) (b : Bool)
    (h : requiredChecks input = .ok (s, tn, tt, b)) :
    checkThought input = .ok s
    ∧ checkPosIntField "thoughtNumber" thoughtNumberMsg input = .ok tn
    ∧ checkPosIntField "totalThoughts" totalThoughtsMsg input = .ok tt
    ∧ checkNextThoughtNeeded input = .ok b := by
  unfold requiredChecks at h
  split at h
  · exact absurd h (by simp)
  · split at h
    · exact absurd h (by simp)
    · rename_i s0 hs0
      split at h
      · exact absurd h (by simp)
      · rename_i tn0 htn0
        split at h
        · exact absurd h (by simp)
        · rename_i tt0 htt0
          split at h
          · exact absurd h (by simp)
          · rename_i b0 hb0
            rw [Except.ok.injEq, Prod.mk.injEq, Prod.mk.injEq, Prod.mk.injEq] at h
            obtain ⟨h1, h2, h3, h4⟩ := h
            subst h1; subst h2; subst h3; subst h4
            exact ⟨hs0, htn0, htt0, hb0⟩

/-- Inversion of the validator: a successful validation pins down every field
of the returned step and the emitted warnings. -/
theorem validate_ok_fields (input : JSVal) (v : ThoughtData) (w : List String)
    (h : validateThoughtData input = .ok (v, w)) :
    checkThought input = .ok v.thought
    ∧ checkPosIntField "thoughtNumber" thoughtNumberMsg input = .ok v.thoughtNumber
    ∧ checkPosIntField "totalThoughts" totalThoughtsMsg input = .ok v.totalThoughts
    ∧ checkNextThoughtNeeded input = .ok v.nextThoughtNeeded
    ∧ confidenceCheck input = .ok v.confidence_score
    ∧ kaCheck input = .ok v.knowledge_assessment
    ∧ v.isRevision = parseOptBool (jsGet input "isRevision")
    ∧ v.revisesThought = parsePosInt (jsGet input "revisesThought")
    ∧ v.branchFromThought = parsePosInt (jsGet input "branchFromThought")
    ∧ v.branchId = parseOptStr (jsGet input "branchId")
    ∧ v.needsMoreThoughts = none
    ∧ w = warnsOf input := by
  unfold validateThoughtData at h
  split at h
  · exact absurd h (by simp)
  · rename_i s tn tt b hreq
    split at h
    · exact absurd h (by simp)
    · rename_i conf hconf
      split at h
      · exact absurd h (by simp)
      · rename_i ka hka
        rw [Except.ok.injEq, Prod.mk.injEq] at h
        obtain ⟨hv, hw⟩ := h
        subst hv; subst hw
        obtain ⟨r1, r2, r3, r4⟩ := requiredChecks_ok input s tn tt b hreq
        exact ⟨r1, r2, r3, r4, hconf, hka, rfl, rfl, rfl, rfl, rfl, rfl⟩

/-- Input with all required fields valid and an empty-string branchId. -/
def emptyBranchIdInput : JSVal :=
  .obj [("thought", .str "t"), ("thoughtNumber", .num 1),
        ("totalThoughts", .num 1), ("nextThoughtNeeded", .bool true),
        ("branchId", .str "")]

/-- Counterexample to C4 as stated: an empty-string branchId is NOT dropped by
the validator — it is retained in the validated step as the empty string. -/
theorem branchId_empty_retained_cex :
    (match validateThoughtData emptyBranchIdInput with
     | .ok (v, _) => v.branchId
     | .error _ => none) = some "" := by decide

/-- Claim C4 (amended): for every accepted input, branchId is retained in the
validated step exactly when the raw value is a string — any string, including
the empty one — and every non-string value is silently dropped (treated as
absent) rather than causing a validation failure. -/
theorem branchId_string_retained (input : JSVal) (v : ThoughtData)
    (w : List String) (h : validateThoughtData input = .ok (v, w)) :
    v.branchId = (match jsGet input "branchId" with
                  | some (.str s) => some s
                  | _ => none) :=
  (validate_ok_fields input v w h).2.2.2.2.2.2.2.2.2.1

/-- Input with all required fields valid and a numeric (non-string)
branchId. -/
def numBranchIdInput : JSVal :=
  .obj [("thought", .str "t"), ("thoughtNumber", .num 1),
        ("totalThoughts", .num 1), ("nextThoughtNeeded", .bool true),
        ("branchId", .num 5)]

/-- The step the validator produces for `numBranchIdInput`. -/
def numBranchIdStep : ThoughtData :=
  { thought := "t", thoughtNumber := 1, totalThoughts := 1,
    nextThoughtNeeded := true, confidence_score := none,
    knowledge_assessment := none, isRevision := none, revisesThought := none,
    branchFromThought := none, branchId := none, needsMoreThoughts := none }

/-- Witness for C4: a numeric branchId on an otherwise valid input is dropped
without failing the call. -/
theorem branchId_string_retained_witness :
    validateThoughtData numBranchIdInput = .ok (numBranchIdStep, [])
    ∧ numBranchIdStep.branchId = none := by
  have h := branchId_string_retained numBranchIdInput numBranchIdStep []
    (by decide)
  exact ⟨by decide, h.trans (by decide)⟩

/-- Appending a fresh entry does not shadow an existing key. -/
theorem ownGet_append_some (bs : List (String × List ThoughtData))
    (k key : String) (x y : List ThoughtData)
    (h : ownGet bs key = some y) :
    ownGet (bs ++ [(k, x)]) key = some y := by
  induction bs with
  | nil => simp [ownGet] at h
  | cons hd tl ih =>
    obtain ⟨k0, x0⟩ := hd
    by_cases h0 : k0 = key
    · simp only [ownGet, List.cons_append, if_pos h0] at h ⊢; exact h
    · simp only [ownGet, List.cons_append, if_neg h0] at h ⊢; exact ih h

/-- Looking up after appending a fresh entry for an absent key. -/
theorem ownGet_append_none (bs : List (String × List ThoughtData))
    (k key : String) (x : List ThoughtData)
    (h : ownGet bs key = none) :
    ownGet (bs ++ [(k, x)]) key = if k = key then some x else none := by
  induction bs with
  | nil => simp [ownGet]
  | cons hd tl ih =>
    obtain ⟨k0, x0⟩ := hd
    by_cases h0 : k0 = key
    · simp only [ownGet, if_pos h0] at h; cases h
    · simp only [ownGet, List.cons_append, if_neg h0] at h ⊢; exact ih h

/-- Updating a present key is observed by a lookup of that key. -/
theorem ownGet_branchSet_eq (bs : List (String × List ThoughtData))
    (k : String) (x y : List ThoughtData)
    (h : ownGet bs k = some y) :
    ownGet (branchSet bs k x) k = some x := by
  induction bs with
  | nil => simp [ownGet] at h
  | cons hd tl ih =>
    obtain ⟨k0, x0⟩ := hd
    by_cases h0 : k0 = k
    · simp [branchSet, ownGet, h0]
    · simp only [ownGet, if_neg h0] at h
      simp [branchSet, ownGet, h0, ih h]

/-- Updating one key leaves lookups of other keys unchanged. -/
theorem ownGet_branchSet_ne (bs : List (String × List ThoughtData))
    (k key : String) (x : List ThoughtData) (h : key ≠ k) :
    ownGet (branchSet bs k x) key = ownGet bs key := by
  induction bs with
  | nil => simp [branchSet, ownGet]
  | cons hd tl ih =>
    obtain ⟨k0, x0⟩ := hd
    by_cases h0 : k0 = k
    · subst h0
      have h0' : k0 ≠ key := fun hh => h hh.symm
      simp [branchSet, ownGet, h0']
    · simp [branchSet, ownGet, h0, ih]

/-- A step passing the branch truthiness test carries a branchId. -/
theorem branchCond_branchId (v : ThoughtData) (h : branchCond v = true) :
    v.branchId = some (v.branchId.getD "") := by
  cases hb : v.branchId with
  | none => rw [branchCond, hb] at h; simp [strOptTruthy] at h
  | some s => rfl

/-- A bracket read yielding `undefined` means no own entry (and the key is
not an Object.prototype name). -/
theorem jsBracketGet_undefVal (bs : List (String × List ThoughtData))
    (key : String) (h : jsBracketGet bs key = .undefVal) :
    ownGet bs key = none := by
  unfold jsBracketGet at h
  cases ho : ownGet bs key with
  | none => rfl
  | some l => simp only [ho] at h; exact absurd h (by simp)

/-- A bracket read yielding an array means exactly that own entry. -/
theorem jsBracketGet_arr (bs : List (String × List ThoughtData))
    (key : String) (l : List ThoughtData)
    (h : jsBracketGet bs key = .arr l) :
    ownGet bs key = some l := by
  unfold jsBracketGet at h
  cases ho : ownGet bs key with
  | none =>
    simp only [ho] at h
    split at h <;> exact absurd h (by simp)
  | some l0 =>
    simp only [ho] at h
    exact congrArg some (JSRecordVal.arr.inj h)

/-- The branch record left behind by the branching logic: the updated record
on the non-throwing outcomes, the untouched one when the push threw. -/
def branchesAfter (bs : List (String × List ThoughtData)) (v : ThoughtData) :
    List (String × List ThoughtData) :=
  match branchUpdate bs v with
  | .updated bs' _ => bs'
  | .pushThrew => bs

/-- processOk leaves exactly the branchesAfter record, on every outcome. -/
theorem processOk_branches (σ : ToolState) (v : ThoughtData)
    (w : List String) :
    (processOk σ v w).2.1.branches = branchesAfter σ.branches (adjustStep v) := by
  cases hb : branchUpdate σ.branches (adjustStep v) <;>
    simp [processOk, branchesAfter, hb]

/-- Characterization of the branch record after one call: the step lands in
exactly the branch named by its branchId — and only when the truthiness test
passes and the bracket read does not hit an inherited Object.prototype
member; every other branch is untouched. -/
theorem branchesAfter_get (bs : List (String × List ThoughtData))
    (v : ThoughtData) (bid : String) :
    ownGet (branchesAfter bs v) bid =
      if branchCond v = true ∧ v.branchId = some bid
          ∧ jsBracketGet bs bid ≠ JSRecordVal.protoFn
      then some ((ownGet bs bid).getD [] ++ [v])
      else ownGet bs bid := by
  by_cases hbc : branchCond v = true
  · have hb := branchCond_branchId v hbc
    by_cases hbb : v.branchId = some bid
    · have hid : v.branchId.getD "" = bid := by rw [hbb]; rfl
      cases hg : jsBracketGet bs bid with
      | undefVal =>
        have hown := jsBracketGet_undefVal bs bid hg
        have hbu : branchUpdate bs v
            = .updated (bs ++ [(bid, [v])])
              [branchStartMsg bid (v.branchFromThought.getD 0)] := by
          rw [branchUpdate, if_pos hbc, hid, hg]
        rw [if_pos ⟨hbc, hbb, fun hc => JSRecordVal.noConfusion hc⟩,
          branchesAfter, hbu]
        show ownGet (bs ++ [(bid, [v])]) bid
          = some ((ownGet bs bid).getD [] ++ [v])
        rw [ownGet_append_none bs bid bid [v] hown, if_pos rfl, hown]
        rfl
      | arr l =>
        have hown := jsBracketGet_arr bs bid l hg
        have hbu : branchUpdate bs v
            = .updated (branchSet bs bid (l ++ [v])) [] := by
          rw [branchUpdate, if_pos hbc, hid, hg]
        rw [if_pos ⟨hbc, hbb, fun hc => JSRecordVal.noConfusion hc⟩,
          branchesAfter, hbu]
        show ownGet (branchSet bs bid (l ++ [v])) bid
          = some ((ownGet bs bid).getD [] ++ [v])
        rw [ownGet_branchSet_eq bs bid (l ++ [v]) l hown, hown]
        rfl
      | protoFn =>
        have hbu : branchUpdate bs v = .pushThrew := by
          rw [branchUpdate, if_pos hbc, hid, hg]
        rw [if_neg (fun hc => hc.2.2 rfl), branchesAfter, hbu]
    · have hne : bid ≠ v.branchId.getD "" := by
        intro hh; exact hbb (by rw [hb, hh])
      rw [if_neg (fun hc => hbb hc.2.1), branchesAfter]
      cases hg : jsBracketGet bs (v.branchId.getD "") with
      | undefVal =>
        have hbu : branchUpdate bs v
            = .updated (bs ++ [(v.branchId.getD "", [v])])
              [branchStartMsg (v.branchId.getD "")
                (v.branchFromThought.getD 0)] := by
          rw [branchUpdate, if_pos hbc, hg]
        rw [hbu]
        show ownGet (bs ++ [(v.branchId.getD "", [v])]) bid = ownGet bs bid
        cases hg2 : ownGet bs bid with
        | none =>
          rw [ownGet_append_none bs (v.branchId.getD "") bid [v] hg2,
            if_neg (fun hh => hne hh.symm)]
        | some y =>
          rw [ownGet_append_some bs (v.branchId.getD "") bid [v] y hg2]
      | arr l =>
        have hbu : branchUpdate bs v
            = .updated (branchSet bs (v.branchId.getD "") (l ++ [v])) [] := by
          rw [branchUpdate, if_pos hbc, hg]
        rw [hbu]
        show ownGet (branchSet bs (v.branchId.getD "") (l ++ [v])) bid
          = ownGet bs bid
        exact ownGet_branchSet_ne bs (v.branchId.getD "") bid (l ++ [v]) hne
      | protoFn =>
        have hbu : branchUpdate bs v = .pushThrew := by
          rw [branchUpdate, if_pos hbc, hg]
        rw [hbu]
  · rw [if_neg (fun hc => hbc hc.1), branchesAfter,
      show branchUpdate bs v = .updated bs [] from by
        rw [branchUpdate, if_neg (by simp [hbc])]]

/-- The adjustment touches no field other than totalThoughts. -/
theorem adjustStep_preserves (v : ThoughtData) :
    (adjustStep v).thought = v.thought
    ∧ (adjustStep v).thoughtNumber = v.thoughtNumber
    ∧ (adjustStep v).nextThoughtNeeded = v.nextThoughtNeeded
    ∧ (adjustStep v).confidence_score = v.confidence_score
    ∧ (adjustStep v).knowledge_assessment = v.knowledge_assessment
    ∧ (adjustStep v).isRevision = v.isRevision
    ∧ (adjustStep v).revisesThought = v.revisesThought
    ∧ (adjustStep v).branchFromThought = v.branchFromThought
    ∧ (adjustStep v).branchId = v.branchId
    ∧ (adjustStep v).needsMoreThoughts = v.needsMoreThoughts := by
  unfold adjustStep
  split <;> exact ⟨rfl, rfl, rfl, rfl, rfl, rfl, rfl, rfl, rfl, rfl⟩

/-- A step failing the branch truthiness test leaves the branch record and the
notice log untouched, and cannot throw. -/
theorem branchUpdate_not (bs : List (String × List ThoughtData))
    (v : ThoughtData) (h : branchCond v = false) :
    branchUpdate bs v = .updated bs [] := by
  rw [branchUpdate, if_neg (by simp [h])]

/-- The missing-branchId advisory can only be emitted when the parsed branchId
is absent. -/
theorem warnBranch_mem (input : JSVal) (h : warnBranchMsg ∈ warnsOf input) :
    (parseOptStr (jsGet input "branchId")).isNone = true := by
  unfold warnsOf at h
  rcases List.mem_append.mp h with h12 | h3
  · rcases List.mem_append.mp h12 with h1 | h2
    · split at h1
      · exact absurd (List.mem_singleton.mp h1) (by decide)
      · cases h1
    · split at h2
      · rename_i hc
        exact (Bool.and_eq_true _ _ |>.mp hc).2
      · cases h2
  · split at h3
    · exact absurd (List.mem_singleton.mp h3) (by decide)
    · cases h3

/-- An input in C10's scope that is also a revision: positive-integer
branchFromThought, empty branchId, isRevision with a target. -/
def revEmptyBranchInput : JSVal :=
  .obj [("thought", .str "t"), ("thoughtNumber", .num 1),
        ("totalThoughts", .num 1), ("nextThoughtNeeded", .bool true),
        ("isRevision", .bool true), ("revisesThought", .num 1),
        ("branchFromThought", .num 1), ("branchId", .str "")]

/-- Counterexample to C10 as stated: this accepted input has a
positive-integer branchFromThought and an empty-string branchId, yet its
stored step's header label is the Revision one — not the plain Thought label
the claim asserts (the Revision class has priority, lines 166-168). -/
theorem empty_branchId_plain_thought_cex :
    exceptIsOk (validateThoughtData revEmptyBranchInput) = true
    ∧ (processThought initialState revEmptyBranchInput).2.1.thoughtHistory.map
        ThoughtData.branchFromThought = [some 1]
    ∧ (processThought initialState revEmptyBranchInput).2.1.thoughtHistory.map
        ThoughtData.branchId = [some ""]
    ∧ (processThought initialState revEmptyBranchInput).2.1.thoughtHistory.map
        stepLabel = [chalkYellow "🔄 Revision"]
    ∧ chalkYellow "🔄 Revision" ≠ chalkBlue "💭 Thought" :=
  ⟨by decide, by decide, by decide, by decide, by decide⟩

/-- Claim C10 (amended): an input with a positive-integer branchFromThought
and an empty-string branchId is accepted, and the stored step carries
branchId = "" — yet no branch is created or appended to, the missing-branchId
advisory is not emitted, and the rendered header never classifies the step as
a Branch: it is a plain Thought when the step is not a revision, and a
Revision (the higher-priority class) otherwise.  Branch membership and
classification test the truthiness of branchId, not its presence. -/
theorem empty_branchId_is_falsy (σ : ToolState) (input : JSVal)
    (v : ThoughtData) (w : List String) (qb : Rat)
    (h : validateThoughtData input = .ok (v, w))
    (hbft : jsGet input "branchFromThought" = some (.num qb))
    (hden : qb.den = 1) (hpos : 1 ≤ qb)
    (hbid : jsGet input "branchId" = some (.str "")) :
    (processThought σ input).1.isSuccess = true
    ∧ (processThought σ input).2.1.thoughtHistory
        = σ.thoughtHistory ++ [adjustStep v]
    ∧ (adjustStep v).branchId = some ""
    ∧ (adjustStep v).branchFromThought = some qb.num
    ∧ (processThought σ input).2.1.branches = σ.branches
    ∧ warnBranchMsg ∉ w
    ∧ stepLabel (adjustStep v) ≠ chalkGreen "🌿 Branch"
    ∧ (revisionCond (adjustStep v) = false →
        stepLabel (adjustStep v) = chalkBlue "💭 Thought") := by
  have fields := validate_ok_fields input v w h
  have hvb : v.branchId = some "" := by
    rw [fields.2.2.2.2.2.2.2.2.2.1, hbid]; rfl
  have hvf : v.branchFromThought = some qb.num := by
    rw [fields.2.2.2.2.2.2.2.2.1, hbft, parsePosInt, if_pos ⟨hden, hpos⟩]
  have hab : (adjustStep v).branchId = some "" :=
    (adjustStep_preserves v).2.2.2.2.2.2.2.2.1.trans hvb
  have haf : (adjustStep v).branchFromThought = some qb.num :=
    (adjustStep_preserves v).2.2.2.2.2.2.2.1.trans hvf
  have hbc : branchCond (adjustStep v) = false := by
    rw [branchCond, hab]
    exact Bool.and_false _
  have hbu := branchUpdate_not σ.branches (adjustStep v) hbc
  refine ⟨?_, ?_, hab, haf, ?_, ?_, ?_, ?_⟩
  · rw [processThought_ok σ input v w h,
      processOk_updated σ v w σ.branches [] hbu]
    rfl
  · rw [processThought_ok σ input v w h]; exact processOk_history σ v w
  · rw [processThought_ok σ input v w h,
      processOk_updated σ v w σ.branches [] hbu]
  · intro hmem
    have := warnBranch_mem input
      (by rw [fields.2.2.2.2.2.2.2.2.2.2.2] at hmem; exact hmem)
    rw [hbid] at this
    exact absurd this (by decide)
  · by_cases hrev : revisionCond (adjustStep v) = true
    · rw [stepLabel, if_pos hrev]; decide
    · rw [stepLabel, if_neg hrev, if_neg (by simp [hbc])]; decide
  · intro hnorev
    rw [stepLabel, if_neg (by simp [hnorev]), if_neg (by simp [hbc])]

/-- Input with valid required fields, branchFromThought = 2 and an
empty-string branchId. -/
def falsyBranchInput : JSVal :=
  .obj [("thought", .str "t"), ("thoughtNumber", .num 1),
        ("totalThoughts", .num 1), ("nextThoughtNeeded", .bool true),
        ("branchFromThought", .num 2), ("branchId", .str "")]

/-- The step the validator produces for `falsyBranchInput`. -/
def falsyBranchStep : ThoughtData :=
  { thought := "t", thoughtNumber := 1, totalThoughts := 1,
    nextThoughtNeeded := true, confidence_score := none,
    knowledge_assessment := none, isRevision := none, revisesThought := none,
    branchFromThought := some 2, branchId := some "",
    needsMoreThoughts := none }

/-- Witness for C10 at `falsyBranchInput` on a fresh state. -/
theorem empty_branchId_is_falsy_witness :
    (processThought initialState falsyBranchInput).1.isSuccess = true
    ∧ (processThought initialState falsyBranchInput).2.1.thoughtHistory
        = initialState.thoughtHistory ++ [adjustStep falsyBranchStep]
    ∧ (adjustStep falsyBranchStep).branchId = some ""
    ∧ (adjustStep falsyBranchStep).branchFromThought = some (2 : Rat).num
    ∧ (processThought initialState falsyBranchInput).2.1.branches
        = initialState.branches
    ∧ warnBranchMsg ∉ ([] : List String)
    ∧ stepLabel (adjustStep falsyBranchStep) ≠ chalkGreen "🌿 Branch"
    ∧ (revisionCond (adjustStep falsyBranchStep) = false →
        stepLabel (adjustStep falsyBranchStep) = chalkBlue "💭 Thought") :=
  empty_branchId_is_falsy initialState falsyBranchInput falsyBranchStep [] 2
    (by decide) rfl (by decide) (by decide) rfl

/-- Counterexample to C5 as stated: this stored step carries BOTH
branchFromThought (= 2) and branchId (= ""), yet it is appended to no branch —
"carries both fields" is not the operative condition; branchId must also be
non-empty (truthy). -/
theorem branch_append_iff_cex :
    (processThought initialState falsyBranchInput).2.1.thoughtHistory.map
        ThoughtData.branchId = [some ""]
    ∧ (processThought initialState falsyBranchInput).2.1.thoughtHistory.map
        ThoughtData.branchFromThought = [some 2]
    ∧ (processThought initialState falsyBranchInput).2.1.branches = [] := by
  exact ⟨by decide, by decide, by decide⟩

/-- The `active_branches` field of a success payload. -/
def StepResult.activeBranches : StepResult → Option (List String)
  | .success _ _ _ ab _ => some ab
  | .failure _ => none

/-- Valid input carrying branchFromThought = 2 and the given branchId. -/
def branchInputNamed (bid : String) : JSVal :=
  .obj [("thought", .str "t"), ("thoughtNumber", .num 1),
        ("totalThoughts", .num 1), ("nextThoughtNeeded", .bool true),
        ("branchFromThought", .num 2), ("branchId", .str bid)]

/-- State after submitting one step on branch "A" to a fresh instance. -/
def scenState1 : ToolState :=
  (processThought initialState (branchInputNamed "A")).2.1

/-- State after a second step on branch "A". -/
def scenState2 : ToolState :=
  (processThought scenState1 (branchInputNamed "A")).2.1

/-- State after a further step on branch "B". -/
def scenState3 : ToolState :=
  (processThought scenState2 (branchInputNamed "B")).2.1

/-- Claim C5 (amended): a validated step is appended to a branch's sequence
exactly when it carries branchFromThought, a non-empty branchId (the
truthiness test), and the bracket read of the branch record at that branchId
does not hit an inherited Object.prototype member; the branch is created on
first use of such a branchId with an informational notice, while an inherited
member (branchId "toString", "constructor", ...) makes the post-storage push
throw, so the call fails and no branch changes; and the two-steps-on-"A",
one-step-on-"B" scenario yields active branches \x7b"A", "B"\x7d with 2 and 1
entries respectively. -/
theorem branch_append_iff :
    (∀ (σ : ToolState) (input : JSVal) (v : ThoughtData) (w : List String),
      validateThoughtData input = .ok (v, w) →
      (∀ bid : String,
        ownGet (processThought σ input).2.1.branches bid =
          if branchCond (adjustStep v) = true
              ∧ (adjustStep v).branchId = some bid
              ∧ jsBracketGet σ.branches bid ≠ JSRecordVal.protoFn
          then some ((ownGet σ.branches bid).getD [] ++ [adjustStep v])
          else ownGet σ.branches bid)
      ∧ (branchCond (adjustStep v) = true →
          jsBracketGet σ.branches ((adjustStep v).branchId.getD "")
            = JSRecordVal.undefVal →
          branchStartMsg ((adjustStep v).branchId.getD "")
              ((adjustStep v).branchFromThought.getD 0)
            ∈ (processThought σ input).2.2)
      ∧ (branchCond (adjustStep v) = true →
          jsBracketGet σ.branches ((adjustStep v).branchId.getD "")
            = JSRecordVal.protoFn →
          (processThought σ input).1.isFailure = true
          ∧ (processThought σ input).2.1.branches = σ.branches))
    ∧ scenState3.branches.map Prod.fst = ["A", "B"]
    ∧ (processThought scenState2 (branchInputNamed "B")).1.activeBranches
        = some ["A", "B"]
    ∧ ((ownGet scenState3.branches "A").getD []).length = 2
    ∧ ((ownGet scenState3.branches "B").getD []).length = 1 := by
  refine ⟨fun σ input v w h => ⟨fun bid => ?_, fun hbc hg => ?_, fun hbc hg => ?_⟩,
    by decide, by decide, by decide, by decide⟩
  · rw [processThought_ok σ input v w h, processOk_branches]
    exact branchesAfter_get σ.branches (adjustStep v) bid
  · have hbu : branchUpdate σ.branches (adjustStep v)
        = .updated (σ.branches
            ++ [((adjustStep v).branchId.getD "", [adjustStep v])])
          [branchStartMsg ((adjustStep v).branchId.getD "")
            ((adjustStep v).branchFromThought.getD 0)] := by
      rw [branchUpdate, if_pos hbc, hg]
    rw [processThought_ok σ input v w h, processOk_updated σ v w _ _ hbu]
    simp
  · have hbu : branchUpdate σ.branches (adjustStep v) = .pushThrew := by
      rw [branchUpdate, if_pos hbc, hg]
    rw [processThought_ok σ input v w h, processOk_threw σ v w hbu]
    exact ⟨rfl, rfl⟩

/-- The step the validator produces for `branchInputNamed "A"`. -/
def branchStepA : ThoughtData :=
  { thought := "t", thoughtNumber := 1, totalThoughts := 1,
    nextThoughtNeeded := true, confidence_score := none,
    knowledge_assessment := none, isRevision := none, revisesThought := none,
    branchFromThought := some 2, branchId := some "A",
    needsMoreThoughts := none }

/-- Witness for C5's general part at a concrete first branch step: the branch
"A" is created holding exactly that step. -/
theorem branch_append_iff_witness :
    ownGet (processThought initialState (branchInputNamed "A")).2.1.branches
      "A" = some [adjustStep branchStepA] := by
  have h := (branch_append_iff.1 initialState (branchInputNamed "A")
    branchStepA [] (by decide)).1 "A"
  exact h.trans (by decide)

/-- Shape of a failed element validation: the message always names the
element's index. -/
theorem kaItem_err_shape (item : JSVal) (i : Nat) (e : String)
    (h : validateKAItem item i = .error e) : ∃ t, e = kaIdxMsg i t := by
  unfold validateKAItem at h
  split at h
  · exact ⟨kaTailObject, (Except.error.inj h).symm⟩
  · split at h
    · split at h
      · exact ⟨kaTailEntity, (Except.error.inj h).symm⟩
      · split at h
        · split at h
          · exact absurd h (by simp)
          · exact ⟨kaTailStatus, (Except.error.inj h).symm⟩
        · exact ⟨kaTailStatus, (Except.error.inj h).symm⟩
    · exact ⟨kaTailEntity, (Except.error.inj h).symm⟩

/-- Shape of a failed array validation: some element's indexed message. -/
theorem kaList_err_shape (items : List JSVal) (i : Nat) (e : String)
    (h : validateKAList items i = .error e) : ∃ j t, e = kaIdxMsg j t := by
  induction items generalizing i with
  | nil => simp [validateKAList] at h
  | cons item rest ih =>
    rw [validateKAList] at h
    cases hit : validateKAItem item i with
    | error e0 =>
      simp only [hit] at h
      have he : e0 = e := Except.error.inj h
      obtain ⟨t, ht⟩ := kaItem_err_shape item i e0 hit
      exact ⟨i, t, he ▸ ht⟩
    | ok ka =>
      simp only [hit] at h
      cases hrest : validateKAList rest (i + 1) with
      | error e0 =>
        simp only [hrest] at h
        have he : e0 = e := Except.error.inj h
        rw [he] at hrest
        exact ih (i + 1) hrest
      | ok l => simp only [hrest] at h; exact absurd h (by simp)

/-- An indexed knowledge_assessment message is never the confidence message
(they differ within their first ten characters). -/
theorem kaIdxMsg_ne_conf (j : Nat) (t : String) : kaIdxMsg j t ≠ confidenceMsg := by
  intro h
  have d1 : ∀ x y : String, (x ++ y).data = x.data ++ y.data := fun _ _ => rfl
  have he : (kaIdxMsg j t).data =
      ("Invalid item in knowledge_assessment at index ".data
        ++ (toString j).data) ++ t.data := by
    rw [kaIdxMsg, d1, d1]
  have hd := congrArg String.data h
  rw [he, List.append_assoc] at hd
  have h10 := congrArg (List.take 10) hd
  rw [List.take_append_of_le_length (by decide)] at h10
  exact absurd h10 (by decide)

/-- No error produced by the knowledge_assessment check is the confidence
message. -/
theorem kaCheck_err_ne_conf (input : JSVal) (e : String)
    (h : kaCheck input = .error e) : e ≠ confidenceMsg := by
  unfold kaCheck at h
  split at h
  · exact absurd h (by simp)
  · exact absurd h (by simp)
  · rename_i items heqarr
    split at h
    · rename_i e0 hlist
      obtain ⟨j, t, ht⟩ := kaList_err_shape items 0 e0 hlist
      intro hc
      exact kaIdxMsg_ne_conf j t
        (ht ▸ (Except.error.inj h) ▸ hc)
    · exact absurd h (by simp)
  · intro hc
    have : kaArrayMsg = e := Except.error.inj h
    exact absurd (this.trans hc) (by decide)

/-- The value-level confidence constraint: a number within [0, 1]. -/
def confValOk : JSVal → Bool
  | .num q => decide (0 ≤ q) && decide (q ≤ 1)
  | _ => false

/-- A present, non-undefined confidence value outside the constraint makes the
confidence check fail with its message. -/
theorem confidenceCheck_bad (input : JSVal) (cv : JSVal)
    (hp : jsGet input "confidence_score" = some cv)
    (hu : cv ≠ JSVal.undefined) (hbad : confValOk cv = false) :
    confidenceCheck input = .error confidenceMsg := by
  cases cv with
  | num q =>
    simp only [confValOk, Bool.and_eq_false_iff, decide_eq_false_iff_not] at hbad
    have hlt : q < 0 ∨ 1 < q := by
      rcases hbad with h0 | h0
      · exact Or.inl (lt_of_not_ge h0)
      · exact Or.inr (lt_of_not_ge h0)
    unfold confidenceCheck
    rw [hp]
    show (if q < 0 ∨ 1 < q then Except.error confidenceMsg
          else .ok (some q)) = .error confidenceMsg
    rw [if_pos hlt]
  | undefined => exact absurd rfl hu
  | str s => unfold confidenceCheck; rw [hp]
  | bool b => unfold confidenceCheck; rw [hp]
  | null => unfold confidenceCheck; rw [hp]
  | arr l => unfold confidenceCheck; rw [hp]
  | obj f => unfold confidenceCheck; rw [hp]

/-- A present confidence value satisfying the constraint is a number and the
confidence check accepts it. -/
theorem confidenceCheck_good (input : JSVal) (cv : JSVal)
    (hp : jsGet input "confidence_score" = some cv)
    (hgood : confValOk cv = true) :
    ∃ q : Rat, cv = .num q ∧ confidenceCheck input = .ok (some q) := by
  cases cv with
  | num q =>
    simp only [confValOk, Bool.and_eq_true, decide_eq_true_eq] at hgood
    refine ⟨q, rfl, ?_⟩
    unfold confidenceCheck
    rw [hp]
    show (if q < 0 ∨ 1 < q then Except.error confidenceMsg
          else .ok (some q)) = .ok (some q)
    rw [if_neg]
    rintro (hc | hc)
    · exact absurd hc (not_lt.mpr hgood.1)
    · exact absurd hc (not_lt.mpr hgood.2)
  | undefined => cases hgood
  | str s => cases hgood
  | bool b => cases hgood
  | null => cases hgood
  | arr l => cases hgood
  | obj f => cases hgood

/-- The rational 3/2, i.e. the JavaScript number 1.5. -/
def ratThreeHalves : Rat := ⟨3, 2, by decide, by decide⟩

/-- The rational 7/10, i.e. the JavaScript number 0.7. -/
def ratSevenTenths : Rat := ⟨7, 10, by decide, by decide⟩

/-- Valid required fields with confidence_score = 1.5. -/
def confBadInput : JSVal :=
  .obj [("thought", .str "t"), ("thoughtNumber", .num 1),
        ("totalThoughts", .num 1), ("nextThoughtNeeded", .bool true),
        ("confidence_score", .num ratThreeHalves)]

/-- Valid required fields with confidence_score = 0.7. -/
def confGoodInput : JSVal :=
  .obj [("thought", .str "t"), ("thoughtNumber", .num 1),
        ("totalThoughts", .num 1), ("nextThoughtNeeded", .bool true),
        ("confidence_score", .num ratSevenTenths)]

/-- Claim C6: on an input whose required fields pass, a present
confidence_score makes validation fail with the confidence message exactly
when the value is not a number within [0, 1]; in particular 1.5 fails the
whole call citing that field and 0.7 succeeds. -/
theorem confidence_gate :
    (∀ (input cv : JSVal) (s : String) (tn tt : Int) (b : Bool),
      requiredChecks input = .ok (s, tn, tt, b) →
      jsGet input "confidence_score" = some cv →
      cv ≠ JSVal.undefined →
      (validateThoughtData input = .error confidenceMsg
        ↔ confValOk cv = false))
    ∧ (processThought initialState confBadInput).1 = .failure confidenceMsg
    ∧ (processThought initialState confGoodInput).1.isSuccess = true := by
  refine ⟨fun input cv s tn tt b hreq hp hu => ⟨?_, ?_⟩, by decide, by decide⟩
  · intro herr
    by_contra hok
    have hgood : confValOk cv = true := by
      revert hok; cases confValOk cv <;> simp
    obtain ⟨q, hq, hcc⟩ := confidenceCheck_good input cv hp hgood
    unfold validateThoughtData at herr
    simp only [hreq, hcc] at herr
    cases hk : kaCheck input with
    | ok ka => simp only [hk] at herr; exact absurd herr (by simp)
    | error e =>
      simp only [hk] at herr
      exact kaCheck_err_ne_conf input e hk (Except.error.inj herr)
  · intro hbad
    have hcc := confidenceCheck_bad input cv hp hu hbad
    unfold validateThoughtData
    simp only [hreq, hcc]

/-- Witness for C6's general part at confidence_score = 1.5. -/
theorem confidence_gate_witness :
    validateThoughtData confBadInput = .error confidenceMsg := by
  have h := confidence_gate.1 confBadInput (.num ratThreeHalves) "t" 1 1 true
    (by decide) rfl (fun hh => JSVal.noConfusion hh)
  exact h.mpr (by decide)

/-- The message carried by a failed element validation (empty for a passing
element; only used when the element fails). -/
def itemError (item : JSVal) (i : Nat) : String :=
  match validateKAItem item i with
  | .error e => e
  | .ok _ => ""

/-- A failing element check fails precisely with its extracted message. -/
theorem itemError_spec (item : JSVal) (i : Nat)
    (h : exceptIsOk (validateKAItem item i) = false) :
    validateKAItem item i = .error (itemError item i) := by
  cases hit : validateKAItem item i with
  | ok ka => rw [hit] at h; exact absurd h (by simp [exceptIsOk])
  | error e => simp [itemError, hit]

/-- A failed element validation carries one of the three indexed messages:
not an object, bad entity, or bad status. -/
theorem kaItem_err_shape3 (item : JSVal) (i : Nat) (e : String)
    (h : validateKAItem item i = .error e) :
    e = kaIdxMsg i kaTailObject ∨ e = kaIdxMsg i kaTailEntity
      ∨ e = kaIdxMsg i kaTailStatus := by
  unfold validateKAItem at h
  split at h
  · exact Or.inl (Except.error.inj h).symm
  · split at h
    · split at h
      · exact Or.inr (Or.inl (Except.error.inj h).symm)
      · split at h
        · split at h
          · exact absurd h (by simp)
          · exact Or.inr (Or.inr (Except.error.inj h).symm)
        · exact Or.inr (Or.inr (Except.error.inj h).symm)
    · exact Or.inr (Or.inl (Except.error.inj h).symm)

/-- The array validation fails at the first offending element, with that
element's indexed message. -/
theorem kaList_first_err (items : List JSVal) (start i : Nat)
    (hi : i < items.length)
    (hpre : ∀ j (hj : j < items.length), j < i →
      exceptIsOk (validateKAItem (items.get ⟨j, hj⟩) (start + j)) = true)
    (hbad : exceptIsOk (validateKAItem (items.get ⟨i, hi⟩) (start + i)) = false) :
    validateKAList items start
      = .error (itemError (items.get ⟨i, hi⟩) (start + i)) := by
  induction items generalizing start i with
  | nil => exact absurd hi (Nat.not_lt_zero i)
  | cons item rest ih =>
    cases i with
    | zero =>
      simp only [List.get, Nat.add_zero] at hbad ⊢
      rw [validateKAList, itemError_spec item start hbad]
    | succ i0 =>
      have h0 : exceptIsOk (validateKAItem item start) = true := by
        have := hpre 0 (Nat.succ_pos _) (Nat.succ_pos _)
        simpa using this
      rw [validateKAList]
      cases hit : validateKAItem item start with
      | error e => rw [hit] at h0; exact absurd h0 (by simp [exceptIsOk])
      | ok ka =>
        simp only []
        have hi0 : i0 < rest.length := Nat.lt_of_succ_lt_succ hi
        have hrec := ih (start + 1) i0 hi0
          (fun j hj hji => by
            have := hpre (j + 1) (Nat.succ_lt_succ hj) (Nat.succ_lt_succ hji)
            simp only [List.get] at this
            have harith : start + (j + 1) = start + 1 + j := by omega
            rw [harith] at this
            exact this)
          (by
            simp only [List.get] at hbad
            have harith : start + (i0 + 1) = start + 1 + i0 := by omega
            rw [harith] at hbad
            exact hbad)
        rw [hrec]
        simp only [List.get]
        have harith : start + 1 + i0 = start + (i0 + 1) := by omega
        rw [harith]

/-- With required and confidence checks passing, a knowledge_assessment
failure is the call's failure. -/
theorem validate_err_of_ka (input : JSVal) (s : String) (tn tt : Int)
    (b : Bool) (conf : Option Rat) (e : String)
    (hreq : requiredChecks input = .ok (s, tn, tt, b))
    (hconf : confidenceCheck input = .ok conf)
    (hka : kaCheck input = .error e) :
    validateThoughtData input = .error e := by
  unfold validateThoughtData
  simp only [hreq, hconf, hka]

/-- The knowledge_assessment example from the spec: a valid entry followed by
an empty-entity entry. -/
def texasInput : JSVal :=
  .obj [("thought", .str "t"), ("thoughtNumber", .num 1),
        ("totalThoughts", .num 1), ("nextThoughtNeeded", .bool true),
        ("knowledge_assessment", .arr
          [.obj [("entity", .str "Texas"), ("status", .str "known")],
           .obj [("entity", .str ""), ("status", .str "known")]])]

/-- Claim C7: with the earlier checks passing, a present knowledge_assessment
that is not a sequence fails the call with the array message; a sequence
fails at its first offending element, the error message being that element's
indexed message (one of the three per-element messages, all naming the
index); the Texas example fails citing index 1. -/
theorem ka_gate :
    (∀ (input v : JSVal) (s : String) (tn tt : Int) (b : Bool)
        (conf : Option Rat),
      requiredChecks input = .ok (s, tn, tt, b) →
      confidenceCheck input = .ok conf →
      jsGet input "knowledge_assessment" = some v →
      v ≠ JSVal.undefined →
      ((∀ items : List JSVal, v ≠ .arr items) →
        validateThoughtData input = .error kaArrayMsg)
      ∧ (∀ (items : List JSVal) (i : Nat) (hi : i < items.length),
          v = .arr items →
          (∀ j (hj : j < items.length), j < i →
            exceptIsOk (validateKAItem (items.get ⟨j, hj⟩) j) = true) →
          exceptIsOk (validateKAItem (items.get ⟨i, hi⟩) i) = false →
          validateThoughtData input = .error (itemError (items.get ⟨i, hi⟩) i)
          ∧ (itemError (items.get ⟨i, hi⟩) i = kaIdxMsg i kaTailObject
             ∨ itemError (items.get ⟨i, hi⟩) i = kaIdxMsg i kaTailEntity
             ∨ itemError (items.get ⟨i, hi⟩) i = kaIdxMsg i kaTailStatus)))
    ∧ validateThoughtData texasInput = .error (kaIdxMsg 1 kaTailEntity) := by
  refine ⟨fun input v s tn tt b conf hreq hconf hp hu => ⟨?_, ?_⟩, by decide⟩
  · intro harr
    refine validate_err_of_ka input s tn tt b conf kaArrayMsg hreq hconf ?_
    unfold kaCheck
    rw [hp]
    cases v with
    | undefined => exact absurd rfl hu
    | arr items => exact absurd rfl (harr items)
    | str s0 => rfl
    | num q => rfl
    | bool b0 => rfl
    | null => rfl
    | obj f => rfl
  · intro items i hi hv hpre hbad
    subst hv
    have hlist := kaList_first_err items 0 i hi
      (fun j hj hji => by
        have := hpre j hj hji
        rw [Nat.zero_add]
        exact this)
      (by rw [Nat.zero_add]; exact hbad)
    rw [Nat.zero_add] at hlist
    constructor
    · refine validate_err_of_ka input s tn tt b conf _ hreq hconf ?_
      unfold kaCheck
      rw [hp]
      simp only [hlist]
    · exact kaItem_err_shape3 (items.get ⟨i, hi⟩) i
        (itemError (items.get ⟨i, hi⟩) i)
        (itemError_spec (items.get ⟨i, hi⟩) i hbad)

/-- Witness for C7's per-element part: a bad status at index 0 fails the call
with the index-0 status message. -/
theorem ka_gate_witness :
    validateThoughtData (JSVal.obj [("thought", .str "t"),
        ("thoughtNumber", .num 1), ("totalThoughts", .num 1),
        ("nextThoughtNeeded", .bool true),
        ("knowledge_assessment", .arr
          [.obj [("entity", .str "Paris"), ("status", .str "maybe")]])])
      = .error (itemError
          (JSVal.obj [("entity", .str "Paris"), ("status", .str "maybe")]) 0) := by
  have h := (ka_gate.1 (JSVal.obj [("thought", .str "t"),
        ("thoughtNumber", .num 1), ("totalThoughts", .num 1),
        ("nextThoughtNeeded", .bool true),
        ("knowledge_assessment", .arr
          [.obj [("entity", .str "Paris"), ("status", .str "maybe")]])])
      (.arr [.obj [("entity", .str "Paris"), ("status", .str "maybe")]])
      "t" 1 1 true none (by decide) (by decide) rfl
      (fun hh => JSVal.noConfusion hh)).2
      [.obj [("entity", .str "Paris"), ("status", .str "maybe")]]
      0 (by decide) rfl
      (fun j hj hji => absurd hji (Nat.not_lt_zero j))
      (by decide)
  exact h.1

/-- Valid input claiming thoughtNumber 5 of totalThoughts 3. -/
def adjustInput : JSVal :=
  .obj [("thought", .str "t"), ("thoughtNumber", .num 5),
        ("totalThoughts", .num 3), ("nextThoughtNeeded", .bool true)]

/-- Counterexample to C9 as stated: totalThoughts = 3 is present and accepted
by the validator, yet the stored step carries totalThoughts = 5 (the §4.2
auto-adjustment) — not the accepted value. -/
theorem roundtrip_cex :
    jsGet adjustInput "totalThoughts" = some (.num 3)
    ∧ exceptIsOk (validateThoughtData adjustInput) = true
    ∧ (processThought initialState adjustInput).2.1.thoughtHistory.map
        ThoughtData.totalThoughts = [5] :=
  ⟨rfl, by decide, by decide⟩

/-- Claim C9 (amended): round-trip through the validator — every field
present in the input and accepted appears in the VALIDATED step with the same
value, and the deprecated needsMoreThoughts flag is never included; the
STORED step coincides with the validated one except that totalThoughts is
raised to thoughtNumber when the latter is larger (it is unchanged whenever
thoughtNumber ≤ totalThoughts, and totalThoughts is the only field the store
can change). -/
theorem roundtrip_fields (input : JSVal) (v : ThoughtData) (w : List String)
    (h : validateThoughtData input = .ok (v, w)) :
    (∀ s : String, jsGet input "thought" = some (.str s) → v.thought = s)
    ∧ (∀ q : Rat, jsGet input "thoughtNumber" = some (.num q) →
        (v.thoughtNumber : Rat) = q)
    ∧ (∀ q : Rat, jsGet input "totalThoughts" = some (.num q) →
        (v.totalThoughts : Rat) = q)
    ∧ (∀ b0 : Bool, jsGet input "nextThoughtNeeded" = some (.bool b0) →
        v.nextThoughtNeeded = b0)
    ∧ (∀ q : Rat, jsGet input "confidence_score" = some (.num q) →
        v.confidence_score = some q)
    ∧ (∀ ka, kaCheck input = .ok ka → v.knowledge_assessment = ka)
    ∧ (∀ (item : JSVal) (i : Nat) (ka0 : KnowledgeAssessment),
        validateKAItem item i = .ok ka0 →
        jsGet item "entity" = some (.str ka0.entity)
        ∧ jsGet item "status" = some (.str ka0.status))
    ∧ (∀ b0 : Bool, jsGet input "isRevision" = some (.bool b0) →
        v.isRevision = some b0)
    ∧ (∀ q : Rat, jsGet input "revisesThought" = some (.num q) →
        q.den = 1 → 1 ≤ q → v.revisesThought = some q.num)
    ∧ (∀ q : Rat, jsGet input "branchFromThought" = some (.num q) →
        q.den = 1 → 1 ≤ q → v.branchFromThought = some q.num)
    ∧ (∀ s : String, jsGet input "branchId" = some (.str s) →
        v.branchId = some s)
    ∧ v.needsMoreThoughts = none
    ∧ (v.thoughtNumber ≤ v.totalThoughts → adjustStep v = v)
    ∧ { adjustStep v with totalThoughts := v.totalThoughts } = v := by
  have fields := validate_ok_fields input v w h
  obtain ⟨f1, f2, f3, f4, f5, f6, f7, f8, f9, f10, f11, f12⟩ := fields
  refine ⟨?_, ?_, ?_, ?_, ?_, ?_, ?_, ?_, ?_, ?_, ?_, f11, ?_, ?_⟩
  · intro s hs
    simp only [checkThought, hs] at f1
    by_cases hemp : s.isEmpty
    · rw [if_pos hemp] at f1; exact absurd f1 (by simp)
    · rw [if_neg hemp] at f1; exact (Except.ok.inj f1).symm
  · intro q hq
    simp only [checkPosIntField, hq] at f2
    by_cases hcond : q.den = 1 ∧ 1 ≤ q
    · rw [if_pos hcond] at f2
      rw [← Except.ok.inj f2]
      exact (Rat.den_eq_one_iff q).mp hcond.1
    · rw [if_neg hcond] at f2; exact absurd f2 (by simp)
  · intro q hq
    simp only [checkPosIntField, hq] at f3
    by_cases hcond : q.den = 1 ∧ 1 ≤ q
    · rw [if_pos hcond] at f3
      rw [← Except.ok.inj f3]
      exact (Rat.den_eq_one_iff q).mp hcond.1
    · rw [if_neg hcond] at f3; exact absurd f3 (by simp)
  · intro b0 hb
    simp only [checkNextThoughtNeeded, hb] at f4
    exact (Except.ok.inj f4).symm
  · intro q hq
    simp only [confidenceCheck, hq] at f5
    by_cases hc : q < 0 ∨ 1 < q
    · rw [if_pos hc] at f5; exact absurd f5 (by simp)
    · rw [if_neg hc] at f5; exact (Except.ok.inj f5).symm
  · intro ka hka
    exact (Except.ok.inj (hka.symm.trans f6)).symm
  · intro item i ka0 hit
    unfold validateKAItem at hit
    split at hit
    · exact absurd hit (by simp)
    · split at hit
      · rename_i e0 hent
        split at hit
        · exact absurd hit (by simp)
        · split at hit
          · rename_i st0 hst
            split at hit
            · have hk := Except.ok.inj hit
              rw [← hk]
              exact ⟨hent, hst⟩
            · exact absurd hit (by simp)
          · exact absurd hit (by simp)
      · exact absurd hit (by simp)
  · intro b0 hb
    rw [f7, hb]; rfl
  · intro q hq hden hpos
    rw [f8, hq, parsePosInt, if_pos ⟨hden, hpos⟩]
  · intro q hq hden hpos
    rw [f9, hq, parsePosInt, if_pos ⟨hden, hpos⟩]
  · intro s hs
    rw [f10, hs]; rfl
  · intro hle
    rw [adjustStep, if_neg (not_lt.mpr hle)]
  · exact adjustStep_only_total v

/-- A fully populated valid input used to witness the round-trip. -/
def richInput : JSVal :=
  .obj [("thought", .str "hello"), ("thoughtNumber", .num 1),
        ("totalThoughts", .num 2), ("nextThoughtNeeded", .bool false),
        ("confidence_score", .num ratSevenTenths),
        ("knowledge_assessment", .arr
          [.obj [("entity", .str "Texas"), ("status", .str "known")]]),
        ("isRevision", .bool true), ("revisesThought", .num 1),
        ("branchFromThought", .num 1), ("branchId", .str "A"),
        ("needsMoreThoughts", .bool true)]

/-- The step the validator produces for `richInput`. -/
def richStep : ThoughtData :=
  { thought := "hello", thoughtNumber := 1, totalThoughts := 2,
    nextThoughtNeeded := false, confidence_score := some ratSevenTenths,
    knowledge_assessment := some [{ entity := "Texas", status := "known" }],
    isRevision := some true, revisesThought := some 1,
    branchFromThought := some 1, branchId := some "A",
    needsMoreThoughts := none }

/-- Witness for C9 at `richInput`: representative accepted fields round-trip
into the validated step and the deprecated flag is dropped. -/
theorem roundtrip_fields_witness :
    richStep.thought = "hello"
    ∧ richStep.confidence_score = some ratSevenTenths
    ∧ richStep.branchId = some "A"
    ∧ richStep.needsMoreThoughts = none
    ∧ adjustStep richStep = richStep := by
  have h := roundtrip_fields richInput richStep [warnDeprecatedMsg] (by decide)
  exact ⟨h.1 "hello" rfl, h.2.2.2.2.1 ratSevenTenths rfl,
    h.2.2.2.2.2.2.2.2.2.2.1 "A" rfl, h.2.2.2.2.2.2.2.2.2.2.2.1,
    h.2.2.2.2.2.2.2.2.2.2.2.2.1 (by decide)⟩

/-- A non-empty string is kept by `filter(Boolean)`. -/
theorem isEmpty_false_of_ne (s : String) (h : s ≠ "") : s.isEmpty = false := by
  rw [Bool.eq_false_iff]
  intro hc
  exact h ((String.isEmpty_iff s).mp hc)

/-- The content blocks of a step with a non-empty thought: the thought first,
then whichever optional blocks are non-empty. -/
theorem coreContentLines_cons (t : ThoughtData) (h : t.thought ≠ "") :
    coreContentLines t = t.thought ::
      ([confidenceLine t, knowledgeLines t].filter (fun l => !l.isEmpty)) := by
  rw [coreContentLines, List.filter_cons]
  simp [isEmpty_false_of_ne t.thought h]

/-- Claim C8: the frame width (`maxWidthOf`, the embedding of line 189 —
the maximum of the visible widths of the header and of every physical line of
every non-empty content block, with ANSI sequences stripped) is unchanged
when the thought text differs only by embedded color/markup control
sequences (equal stripped content, other fields equal); and rendering is a
pure function of the step, so rendering the same step twice is
byte-identical. -/
theorem width_ansi_invariant (s1 s2 : ThoughtData)
    (h1 : s1.thought ≠ "") (h2 : s2.thought ≠ "")
    (hth : (jsSplitNl s1.thought).map stripAnsi
      = (jsSplitNl s2.thought).map stripAnsi)
    (hn : s1.thoughtNumber = s2.thoughtNumber)
    (ht : s1.totalThoughts = s2.totalThoughts)
    (hconf : s1.confidence_score = s2.confidence_score)
    (hka : s1.knowledge_assessment = s2.knowledge_assessment)
    (hrev : s1.isRevision = s2.isRevision)
    (hrevT : s1.revisesThought = s2.revisesThought)
    (hb : s1.branchFromThought = s2.branchFromThought)
    (hbid : s1.branchId = s2.branchId) :
    maxWidthOf s1 = maxWidthOf s2 ∧ formatThought s1 = formatThought s1 := by
  refine ⟨?_, rfl⟩
  have hheader : headerLine s1 = headerLine s2 := by
    simp only [headerLine, stepLabel, contextOf, revisionCond, branchCond,
      hn, ht, hrev, hrevT, hb, hbid]
  have hconf2 : confidenceLine s1 = confidenceLine s2 := by
    rw [confidenceLine, confidenceLine, hconf]
  have hka2 : knowledgeLines s1 = knowledgeLines s2 := by
    rw [knowledgeLines, knowledgeLines, hka]
  have hsplit : (jsSplitNl s1.thought).map (fun l => jsLength (stripAnsi l))
      = (jsSplitNl s2.thought).map (fun l => jsLength (stripAnsi l)) := by
    have hmapped := congrArg (List.map jsLength) hth
    rw [List.map_map, List.map_map] at hmapped
    exact hmapped
  have hlines : (allLinesForWidth s1).map (fun l => jsLength (stripAnsi l))
      = (allLinesForWidth s2).map (fun l => jsLength (stripAnsi l)) := by
    rw [allLinesForWidth, allLinesForWidth, hheader,
      coreContentLines_cons s1 h1, coreContentLines_cons s2 h2,
      hconf2, hka2, List.flatMap_cons, List.flatMap_cons,
      List.map_cons, List.map_cons, List.map_append, List.map_append,
      hsplit]
  calc maxWidthOf s1
      = ((allLinesForWidth s1).map (fun l => jsLength (stripAnsi l))).foldl
          max 0 := (List.foldl_map _ _ _ _).symm
    _ = ((allLinesForWidth s2).map (fun l => jsLength (stripAnsi l))).foldl
          max 0 := by rw [hlines]
    _ = maxWidthOf s2 := List.foldl_map _ _ _ _

/-- Step whose thought is wrapped in red color sequences. -/
def ansiStep : ThoughtData :=
  { thought := "\u001B[31mred\u001B[39m text", thoughtNumber := 1,
    totalThoughts := 1, nextThoughtNeeded := true, confidence_score := none,
    knowledge_assessment := none, isRevision := none, revisesThought := none,
    branchFromThought := none, branchId := none, needsMoreThoughts := none }

/-- The same step with the control sequences removed. -/
def plainStep : ThoughtData :=
  { thought := "red text", thoughtNumber := 1,
    totalThoughts := 1, nextThoughtNeeded := true, confidence_score := none,
    knowledge_assessment := none, isRevision := none, revisesThought := none,
    branchFromThought := none, branchId := none, needsMoreThoughts := none }

/-- Witness for C8: the colored and plain steps render frames of equal
width. -/
theorem width_ansi_invariant_witness :
    maxWidthOf ansiStep = maxWidthOf plainStep :=
  (width_ansi_invariant ansiStep plainStep (by decide) (by decide) (by decide)
    rfl rfl rfl rfl rfl rfl rfl rfl).1
